import Mathlib

/-!
Verification of the normalization + diff + insight derivation chain of the
monthly cybersecurity reporting pipeline.  Python dicts are embedded as
association lists (`List (String × α)`) whose entry order models the
insertion order of the dict; lookups return the first binding.
-/

set_option maxRecDepth 4096

/-- First-match lookup in an association list; models Python `d.get(k)` /
`d[k]` on a dict embedded as a list of bindings in insertion order. -/
def alookup (k : String) : List (String × α) → Option α
  | [] => none
  | kv :: rest => if kv.1 = k then some kv.2 else alookup k rest

/-- The key sequence of an embedded dict; models `d.keys()`. -/
def keysOf (m : List (String × α)) : List String := m.map Prod.fst

/-- Python `d[k] = v` on a dict: replaces the value in place if the key is
present (position preserved), otherwise appends a new binding at the end. -/
def insertOverwrite (m : List (String × α)) (k : String) (v : α) : List (String × α) :=
  if k ∈ keysOf m then m.map (fun kv => if kv.1 = k then (k, v) else kv) else m ++ [(k, v)]

/-- Python `set.add` modelled on a list carried in insertion order. -/
def insertSet (l : List String) (k : String) : List String :=
  if k ∈ l then l else l ++ [k]

/-- Python `{**a, **b}`: keys of `a` in order (values overridden by `b` where
shared), followed by the keys of `b` that are new. -/
def pyMerge (a b : List (String × α)) : List (String × α) :=
  a.map (fun kv => (kv.1, (alookup kv.1 b).getD kv.2)) ++
    b.filter (fun kv => decide (kv.1 ∉ keysOf a))

-- Python string primitives, implemented over `String.data` so that every
-- definition evaluates inside the kernel.

/-- Python `str.lower()` (ASCII case mapping). -/
def pyLower (s : String) : String := ⟨s.data.map Char.toLower⟩

/-- Python `str.upper()` (ASCII case mapping). -/
def pyUpper (s : String) : String := ⟨s.data.map Char.toUpper⟩

/-- ASCII whitespace, as stripped by Python `str.strip()`. -/
def isSpaceChar (c : Char) : Bool := c = ' ' || c = '\t' || c = '\n' || c = '\r'

/-- Python `str.strip()`. -/
def pyStrip (s : String) : String :=
  ⟨((s.data.dropWhile isSpaceChar).reverse.dropWhile isSpaceChar).reverse⟩

/-- Python `c in s` for a single character. -/
def strContainsChar (s : String) (c : Char) : Bool := s.data.contains c

/-- Python `s.endswith(pat)`. -/
def strEndsWith (s pat : String) : Bool := pat.data.isSuffixOf s.data

/-- Helper for `pySplitOn`: scan the character list, cutting at each
occurrence of `sep`; `skip` counts separator characters still to consume
after a match (structural recursion on the scanned list). -/
def splitOnGo (sep : List Char) : List Char → List Char → Nat → List (List Char)
  | [], acc, _ => [acc.reverse]
  | _ :: rest, acc, Nat.succ skip => splitOnGo sep rest acc skip
  | c :: rest, acc, 0 =>
      if sep ≠ [] ∧ sep.isPrefixOf (c :: rest) then
        acc.reverse :: splitOnGo sep rest [] (sep.length - 1)
      else
        splitOnGo sep rest (c :: acc) 0

/-- Python `s.split(sep)` for a non-empty separator. -/
def pySplitOn (s sep : String) : List String :=
  (splitOnGo sep.data s.data [] 0).map (fun l => ⟨l⟩)

/-- Helper for `pyReplace`: replace every non-overlapping occurrence of
`pat`, scanning left to right (`skip` as in `splitOnGo`). -/
def replaceGo (pat rep : List Char) : List Char → Nat → List Char
  | [], _ => []
  | _ :: rest, Nat.succ skip => replaceGo pat rep rest skip
  | c :: rest, 0 =>
      if pat ≠ [] ∧ pat.isPrefixOf (c :: rest) then
        rep ++ replaceGo pat rep rest (pat.length - 1)
      else
        c :: replaceGo pat rep rest 0

/-- Python `s.replace(pat, rep)` for a non-empty pattern. -/
def pyReplace (s pat rep : String) : String := ⟨replaceGo pat.data rep.data s.data 0⟩

/-- Helper for `containsStr`: substring search on character lists. -/
def containsSub (pat : List Char) : List Char → Bool
  | [] => pat.isPrefixOf []
  | c :: rest => pat.isPrefixOf (c :: rest) || containsSub pat rest

/-- Python `pat in s` substring test. -/
def containsStr (s pat : String) : Bool := containsSub pat.data s.data

-- =====================================================
-- Data model (from the parsers' build_user / asset dict literals)
-- =====================================================

/-- `services` mapping of a user record (user_list_parser.build_user). -/
structure Services where
  m365 : Bool
  edr : Bool
  backup : Bool
  phishing_training : Bool
  dark_web_monitoring : Bool
deriving DecidableEq, Repr

/-- `risk_signals` mapping of a user record.  The base parser creates only
`phishing_clicked`, `dark_web_exposed` and `edr_incidents`; fields that are
absent until an enricher writes them are `Option`-typed (`none` = key absent). -/
structure RiskSignals where
  phishing_clicked : Bool
  dark_web_exposed : Bool
  edr_incidents : Nat
  phishing_failures : Nat
  phishing_campaigns : Nat
  phishing_risk : Option String
  dark_web_source : Option String
  dark_web_severity : Option String
deriving DecidableEq, Repr

/-- Canonical user record (user_list_parser.build_user). -/
structure User where
  name : String
  status : String
  first_seen : Option String
  last_seen : String
  services : Services
  risk_signals : RiskSignals
deriving DecidableEq, Repr

/-- `security_state` of an asset.  The base parser creates the three booleans;
`edr_alerts`, `edr_incidents` and `risk_level` are written by the EDR enricher
(`risk_level` is `Option`-typed: `none` = key absent). -/
structure SecurityState where
  edr_installed : Bool
  backup_enabled : Bool
  patched : Bool
  edr_alerts : Nat
  edr_incidents : Nat
  risk_level : Option String
deriving DecidableEq, Repr

/-- `backup_state` of an asset, as written by the backup enricher. -/
structure BackupState where
  enabled : Bool
  status : String
  risk_level : String
deriving DecidableEq, Repr

/-- Canonical asset record (asset_list_parser).  `backup_state = none` means
the key is absent (the base parser never creates it). -/
structure Asset where
  device_name : String
  serial_number : Option String
  assigned_user : Option String
  type : String
  model : String
  os : String
  status : String
  first_seen : Option String
  last_seen : String
  security_state : SecurityState
  backup_state : Option BackupState
deriving DecidableEq, Repr

/-- A user snapshot's `users` mapping. -/
abbrev UserMap : Type := List (String × User)

/-- An asset snapshot's `assets` mapping. -/
abbrev AssetMap : Type := List (String × Asset)

-- =====================================================
-- User List Parser (src/scripts/parsers/user_list_parser.py)
-- =====================================================

/-- Domain alias substitution table (user_list_parser.DOMAIN_ALIASES). -/
def DOMAIN_ALIASES : List (String × String) := [("@alteradevco.co", "@alteradevco.com")]

/-- user_list_parser.normalize_email: NFKC-normalize (the NFKC step is passed
in as `nfkc`, since Unicode tables are outside the embedding), strip, lower,
reject strings without `@`, then substitute aliased domains. -/
def normalize_email (nfkc : String → String) (email : String) : String :=
  let e := pyLower (pyStrip (nfkc email))
  if strContainsChar e '@' then
    DOMAIN_ALIASES.foldl
      (fun acc p => if strEndsWith acc p.1 then pyReplace acc p.1 p.2 else acc) e
  else ""

/-- One raw row of a user table, after the external column-resolution step
has extracted the email / name / status / products cells. -/
structure URow where
  email_raw : String
  name_val : String
  status_raw : String
  products_raw : String
deriving DecidableEq, Repr

/-- user_list_parser.build_user. -/
def build_user (email name status_raw products_raw month : String) : User :=
  { name := if name = "" then (pySplitOn email "@").headD "" else name
    status :=
      if ["yes", "true", "enabled", "active", "1"].contains (pyLower status_raw)
      then "active" else "inactive"
    first_seen := none
    last_seen := month
    services :=
      { m365 := ["office 365", "microsoft 365", "m365"].any
          (fun k => containsStr (pyLower products_raw) k)
        edr := false, backup := false, phishing_training := false
        dark_web_monitoring := false }
    risk_signals :=
      { phishing_clicked := false, dark_web_exposed := false, edr_incidents := 0
        phishing_failures := 0, phishing_campaigns := 0
        phishing_risk := none, dark_web_source := none, dark_web_severity := none } }

/-- One iteration of the row loop of parse_user_list_xlsx (lines 143-167):
rows with no resolvable email are skipped; a second occurrence of an already
seen identity key is skipped and recorded in the `duplicates` set; otherwise
the built user is appended. -/
def user_parse_step (nfkc : String → String) (month : String)
    (st : UserMap × List String) (r : URow) : UserMap × List String :=
  let email := normalize_email nfkc (pyStrip r.email_raw)
  if email = "" then st
  else if email ∈ keysOf st.1 then (st.1, insertSet st.2 email)
  else (st.1 ++ [(email, build_user email r.name_val r.status_raw r.products_raw month)], st.2)

/-- The row loop of parse_user_list_xlsx: returns the `users` dict and the
`duplicates` set. -/
def parse_user_rows (nfkc : String → String) (rows : List URow) (month : String) :
    UserMap × List String :=
  rows.foldl (user_parse_step nfkc month) ([], [])

/-- user_list_parser.resolve_first_seen:
`user["first_seen"] = previous.get(email, {}).get("first_seen", month)`. -/
def resolve_first_seen_users (current previous : UserMap) (month : String) : UserMap :=
  current.map (fun kv => (kv.1,
    { kv.2 with first_seen :=
        match alookup kv.1 previous with
        | some p => p.first_seen
        | none => some month }))

/-- The normalization chain of parse_user_list for one month: parse the rows,
then resolve first_seen against the previous snapshot. -/
def user_month_step (nfkc : String → String) (rows : List URow) (month : String)
    (prevSnap : UserMap) : UserMap :=
  resolve_first_seen_users (parse_user_rows nfkc rows month).1 prevSnap month

-- =====================================================
-- Asset List Parser (src/scripts/parsers/asset_list_parser.py)
-- =====================================================

/-- asset_list_parser.normalize_device_name. -/
def normalize_device_name (s : String) : String := pyUpper (pyStrip s)

/-- asset_list_parser.normalize_serial. -/
def normalize_serial (s : String) : String := pyUpper (pyStrip s)

/-- asset_list_parser.normalize_email. -/
def normalize_email_simple (s : String) : String := pyLower (pyStrip s)

/-- asset_list_parser.generate_asset_id: serial-based identity preferred,
device-name fallback, with a tag distinguishing the two identity spaces. -/
def generate_asset_id (device_name serial : String) : String :=
  if serial ≠ "" then "SN:" ++ serial else "DN:" ++ device_name

/-- One raw row of an asset table, after external column resolution. -/
structure ARow where
  device_raw : String
  serial_raw : String
  user_raw : String
  model_val : String
  os_val : String
deriving DecidableEq, Repr

/-- The asset dict literal of parse_asset_list_xlsx (lines 146-178). -/
def build_asset (r : ARow) (month : String) : Asset :=
  let dn := normalize_device_name r.device_raw
  let sn := normalize_serial r.serial_raw
  let user_email :=
    if strContainsChar r.user_raw '@'
    then normalize_email_simple ((pySplitOn r.user_raw "\\").getLastD "")
    else ""
  { device_name := dn
    serial_number := if sn = "" then none else some sn
    assigned_user := if user_email = "" then none else some user_email
    type := "workstation"
    model := r.model_val
    os := r.os_val
    status := "active"
    first_seen := none
    last_seen := month
    security_state :=
      { edr_installed := false, backup_enabled := false, patched := false
        edr_alerts := 0, edr_incidents := 0, risk_level := none }
    backup_state := none }

/-- The identity key a raw asset row resolves to (`none` when the row is
skipped for lacking both device name and serial). -/
def asset_row_key (r : ARow) : Option String :=
  let dn := normalize_device_name r.device_raw
  let sn := normalize_serial r.serial_raw
  if dn = "" ∧ sn = "" then none else some (generate_asset_id dn sn)

/-- One iteration of the row loop of parse_asset_list_xlsx (lines 117-180):
rows with neither device name nor serial are skipped; a duplicate asset id is
a warning but the assignment `assets[asset_id] = {...}` still OVERWRITES the
earlier occurrence. -/
def asset_parse_step (month : String) (m : AssetMap) (r : ARow) : AssetMap :=
  let dn := normalize_device_name r.device_raw
  let sn := normalize_serial r.serial_raw
  if dn = "" ∧ sn = "" then m
  else insertOverwrite m (generate_asset_id dn sn) (build_asset r month)

/-- The row loop of parse_asset_list_xlsx. -/
def parse_asset_rows (rows : List ARow) (month : String) : AssetMap :=
  rows.foldl (asset_parse_step month) []

/-- asset_list_parser.resolve_first_seen (lines 249-254). -/
def resolve_first_seen_assets (current previous : AssetMap) (month : String) : AssetMap :=
  current.map (fun kv => (kv.1,
    { kv.2 with first_seen :=
        match alookup kv.1 previous with
        | some p => p.first_seen
        | none => some month }))

/-- asset_list_parser.mark_retired_assets (lines 257-264): iterate the
previous snapshot in order; every asset absent from the current month is
copied with `status := "retired"`, all other fields frozen. -/
def mark_retired_assets (current : AssetMap) : AssetMap → AssetMap
  | [] => []
  | kv :: rest =>
      if kv.1 ∈ keysOf current then mark_retired_assets current rest
      else (kv.1, { kv.2 with status := "retired" }) :: mark_retired_assets current rest

/-- The snapshot assembly of parse_asset_list (lines 293-297):
resolve first_seen, mark retirements, `{**current_assets, **retired_assets}`. -/
def parse_asset_list_core (current previous : AssetMap) (month : String) : AssetMap :=
  let resolved := resolve_first_seen_assets current previous month
  pyMerge resolved (mark_retired_assets resolved previous)

/-- The month-over-month asset normalization step, from raw rows. -/
def asset_month_step (rows : List ARow) (month : String) (prevSnap : AssetMap) : AssetMap :=
  parse_asset_list_core (parse_asset_rows rows month) prevSnap month

-- =====================================================
-- Diff Engine (src/scripts/diff_engine.py)
-- =====================================================

/-- diff_engine.load_snapshot: a missing file (`none`) yields an EMPTY
mapping, `json.load(f).get(key, {})` otherwise. -/
def load_snapshot (file : Option (List (String × α))) : List (String × α) :=
  file.getD []

/-- Per-identity service change record (`{"added": [...], "removed": [...]}`). -/
structure ServiceChange where
  added : List String
  removed : List String
deriving DecidableEq, Repr

/-- `diff_users` output. -/
structure UserDiff where
  new_users : List String
  resigned_users : List String
  service_changes : List (String × ServiceChange)
deriving DecidableEq, Repr

/-- Ownership change record; the JSON keys are `"from"` and `"to"`. -/
structure OwnershipChange where
  fromUser : Option String
  toUser : Option String
deriving DecidableEq, Repr

/-- `diff_assets` output. -/
structure AssetDiff where
  new_devices : List String
  retired_devices : List String
  ownership_changes : List (String × OwnershipChange)
deriving DecidableEq, Repr

/-- The key order of the `services` dict as built by build_user. -/
def serviceKeys : List String :=
  ["m365", "edr", "backup", "phishing_training", "dark_web_monitoring"]

/-- `services.get(s)` for the canonical service keys. -/
def svc (s : Services) (n : String) : Bool :=
  if n = "m365" then s.m365
  else if n = "edr" then s.edr
  else if n = "backup" then s.backup
  else if n = "phishing_training" then s.phishing_training
  else if n = "dark_web_monitoring" then s.dark_web_monitoring
  else false

/-- Python `sorted` on a list of strings (lexicographic). -/
def sortStr (l : List String) : List String :=
  l.insertionSort (· ≤ ·)

/-- `sorted(set(a) - set(b))` on key lists. -/
def sortedKeyDiff (a b : List String) : List String :=
  sortStr (a.dedup.filter (fun k => decide (k ∉ b)))

/-- The body of the service-change loop of diff_users (lines 39-50) for one
identity: the symmetric difference of truthy service flags, emitted only when
non-empty. -/
def service_change_at (prev curr : UserMap) (email : String) : Option ServiceChange :=
  match alookup email prev, alookup email curr with
  | some pu, some cu =>
    let added := serviceKeys.filter
      (fun s => svc cu.services s && !(svc pu.services s))
    let removed := serviceKeys.filter
      (fun s => svc pu.services s && !(svc cu.services s))
    if added = [] ∧ removed = [] then none else some ⟨added, removed⟩
  | _, _ => none

/-- diff_engine.diff_users.  `io` is the iteration order of the Python set
`prev_set & curr_set` (set iteration order is implementation-defined and, for
strings, hash-seed dependent across processes); any enumeration of the key
intersection is a legitimate instance. -/
def diff_users (prev curr : UserMap) (io : List String) : UserDiff :=
  { new_users := sortedKeyDiff (keysOf curr) (keysOf prev)
    resigned_users := sortedKeyDiff (keysOf prev) (keysOf curr)
    service_changes := io.filterMap (fun email =>
      (service_change_at prev curr email).map (fun ch => (email, ch))) }

/-- The body of the ownership-change loop of diff_assets (lines 72-80) for
one identity: emitted only when `assigned_user` differs. -/
def ownership_change_at (prev curr : AssetMap) (device : String) : Option OwnershipChange :=
  match alookup device prev, alookup device curr with
  | some pa, some ca =>
    if pa.assigned_user = ca.assigned_user then none
    else some ⟨pa.assigned_user, ca.assigned_user⟩
  | _, _ => none

/-- diff_engine.diff_assets, with `io` the iteration order of
`prev_set & curr_set` as in `diff_users`. -/
def diff_assets (prev curr : AssetMap) (io : List String) : AssetDiff :=
  { new_devices := sortedKeyDiff (keysOf curr) (keysOf prev)
    retired_devices := sortedKeyDiff (keysOf prev) (keysOf curr)
    ownership_changes := io.filterMap (fun device =>
      (ownership_change_at prev curr device).map (fun ch => (device, ch))) }

/-- A security alert record. -/
structure AlertRec where
  type : String
  severity : String
  message : String
deriving DecidableEq, Repr

/-- Python truthiness of `asset.get("assigned_user")`: falsy when the key is
absent/None or the string is empty. -/
def optFalsy : Option String → Bool
  | none => true
  | some s => s = ""

/-- diff_engine.generate_alerts: orphaned active devices, then devices still
assigned to resigned users, iterating the current assets in dict order. -/
def generate_alerts (user_diff : UserDiff) (asset_diff : AssetDiff) (assets : AssetMap) :
    List AlertRec :=
  let _ := asset_diff
  (assets.filterMap (fun kv =>
    if kv.2.status = "active" ∧ optFalsy kv.2.assigned_user then
      some ⟨"orphaned_device", "high", "Device " ++ kv.1 ++ " has no assigned user"⟩
    else none)) ++
  user_diff.resigned_users.flatMap (fun email =>
    assets.filterMap (fun kv =>
      if kv.2.assigned_user = some email then
        some ⟨"resigned_user_device", "critical",
          "Resigned user " ++ email ++ " still has device " ++ kv.1⟩
      else none))

/-- diff_engine.generate_metrics. -/
structure MetricsRec where
  user_count_change : Int
  device_count_change : Int
deriving DecidableEq, Repr

/-- diff_engine.generate_metrics: cardinality deltas. -/
def generate_metrics (pu cu : UserMap) (pa ca : AssetMap) : MetricsRec :=
  ⟨(cu.length : Int) - (pu.length : Int), (ca.length : Int) - (pa.length : Int)⟩

/-- The diff payload consumed by the insight engine (`users`, `assets`,
`metrics` keys of the diff JSON). -/
structure DiffData where
  users : UserDiff
  assets : AssetDiff
  metrics : MetricsRec
deriving DecidableEq, Repr

/-- The full diff report written by generate_diff (metadata + payload + alerts). -/
structure DiffReport where
  from_month : String
  to_month : String
  generated_at : String
  users : UserDiff
  assets : AssetDiff
  metrics : MetricsRec
  alerts : List AlertRec
deriving DecidableEq, Repr

/-- The payload of a diff report. -/
def DiffReport.data (d : DiffReport) : DiffData := ⟨d.users, d.assets, d.metrics⟩

/-- diff_engine.generate_diff (lines 131-167), with the wall-clock timestamp
`generated_at` passed in explicitly and `uio`/`aio` the set iteration orders. -/
def generate_diff (prev_users curr_users : UserMap) (prev_assets curr_assets : AssetMap)
    (from_month to_month generated_at : String) (uio aio : List String) : DiffReport :=
  let ud := diff_users prev_users curr_users uio
  let ad := diff_assets prev_assets curr_assets aio
  { from_month := from_month
    to_month := to_month
    generated_at := generated_at
    users := ud
    assets := ad
    metrics := generate_metrics prev_users curr_users prev_assets curr_assets
    alerts := generate_alerts ud ad curr_assets }

/-- A diff report with its generation timestamp erased. -/
def stripTs (d : DiffReport) : DiffReport := { d with generated_at := "" }

/-- The diff stage of run_month (run_month.py lines 135-147): the Diff Engine
is invoked only when BOTH previous-month snapshot files exist; otherwise the
stage is skipped and yields no diff file. -/
def run_month_diff_stage (prev_users_file : Option UserMap) (prev_assets_file : Option AssetMap)
    (curr_users : UserMap) (curr_assets : AssetMap)
    (fm tm ts : String) (uio aio : List String) : Option DiffReport :=
  match prev_users_file, prev_assets_file with
  | some pu, some pa =>
      some (generate_diff (load_snapshot (some pu)) curr_users
        (load_snapshot (some pa)) curr_assets fm tm ts uio aio)
  | _, _ => none

-- =====================================================
-- Insight Engine (src/scripts/insight_engine.py)
-- =====================================================

/-- insight_engine.empty_diff: the sentinel used when no previous month
exists (all-zero metrics, empty lists). -/
def empty_diff : DiffData :=
  { users := { new_users := [], resigned_users := [], service_changes := [] }
    assets := { new_devices := [], retired_devices := [], ownership_changes := [] }
    metrics := ⟨0, 0⟩ }

/-- insight_engine.analyze_identity. -/
def analyze_identity (d : DiffData) : List String :=
  (if d.users.new_users.length > 0 then
    [toString d.users.new_users.length ++ " new user(s) were onboarded during the period."]
   else []) ++
  (if d.users.resigned_users.length > 0 then
    [toString d.users.resigned_users.length ++ " user(s) were deprovisioned during the period."]
   else [])

/-- insight_engine.analyze_assets. -/
def analyze_assets (d : DiffData) : List String :=
  (if d.assets.new_devices.length > 0 then
    [toString d.assets.new_devices.length ++ " new workstation(s) were added."]
   else []) ++
  (if d.assets.retired_devices.length > 0 then
    [toString d.assets.retired_devices.length ++ " workstation(s) were retired."]
   else [])

/-- insight_engine.analyze_security_risks. -/
def analyze_security_risks (users : UserMap) (assets : AssetMap) : List String :=
  users.flatMap (fun kv =>
    (if kv.2.risk_signals.phishing_risk = some "high" then
      ["User " ++ kv.1 ++ " failed a phishing simulation."]
     else []) ++
    (if kv.2.risk_signals.dark_web_exposed then
      ["User " ++ kv.1 ++ " credentials were found on the dark web (severity: " ++
        (kv.2.risk_signals.dark_web_severity.getD "None") ++ ")."]
     else [])) ++
  assets.flatMap (fun kv =>
    (if kv.2.backup_state.map (fun b => b.risk_level) = some "critical" then
      ["Asset " ++ kv.2.device_name ++ " has failing backups."]
     else []) ++
    (if kv.2.backup_state.map (fun b => b.enabled) = some false then
      ["Asset " ++ kv.2.device_name ++ " does not have backups configured."]
     else []) ++
    (if kv.2.security_state.risk_level = some "high" then
      ["Asset " ++ kv.2.device_name ++ " has unresolved EDR incidents."]
     else []))

/-- insight_engine.analyze_positives. -/
def analyze_positives (users : UserMap) (assets : AssetMap) : List String :=
  (if users.all (fun kv => !kv.2.risk_signals.phishing_clicked) then
    ["No users failed phishing simulations this period."]
   else []) ++
  (if assets.all (fun kv => decide (kv.2.backup_state.map (fun b => b.risk_level) ≠ some "critical")) then
    ["All monitored devices have healthy backup status."]
   else []) ++
  (if assets.all (fun kv => decide (kv.2.security_state.risk_level ≠ some "high")) then
    ["No high-severity EDR incidents were detected."]
   else [])

/-- insight_engine.build_summary (lines 160-166): the `summary_metrics` dict,
exactly the four keys the source emits, in dict-literal order. -/
def build_summary (users : UserMap) (assets : AssetMap) (d : DiffData) : List (String × Int) :=
  [("total_users", (users.length : Int)),
   ("total_assets", (assets.length : Int)),
   ("user_change", d.metrics.user_count_change),
   ("asset_change", d.metrics.device_count_change)]

/-- The insight bundle document. -/
structure Insights where
  summary_metrics : List (String × Int)
  identity_insights : List String
  asset_insights : List String
  security_risks : List String
  positive_findings : List String
  trend_indicators : List String
deriving DecidableEq, Repr

/-- The insights dict assembled by run_insight_engine (lines 187-194). -/
def mk_insights (users : UserMap) (assets : AssetMap) (d : DiffData) : Insights :=
  { summary_metrics := build_summary users assets d
    identity_insights := analyze_identity d
    asset_insights := analyze_assets d
    security_risks := analyze_security_risks users assets
    positive_findings := analyze_positives users assets
    trend_indicators := [] }

/-- insight_engine.run_insight_engine: `load_json` returns `None` for a
missing diff file (an explicit not-found), in which case the `empty_diff`
sentinel is substituted. -/
def run_insight_engine (users : UserMap) (assets : AssetMap)
    (diff_file : Option DiffData) : Insights :=
  mk_insights users assets (diff_file.getD empty_diff)

-- =====================================================
-- Narrative Builder metric extraction (src/scripts/narrative_builder.py)
-- =====================================================

/-- The metric block extracted by narrative_builder.compute_metrics. -/
structure NarrativeMetrics where
  users_joined : Int
  users_departed : Int
  net_user_change : Int
  new_devices : Int
  retired_devices : Int
  backup_coverage_percent : Int
  devices_without_backup : Int
  phishing_failures : Int
  critical_edr_incidents : Int
deriving DecidableEq, Repr

/-- narrative_builder.compute_metrics (lines 38-54): every metric is read
from `summary_metrics` with `.get(key, 0)`. -/
def compute_metrics (summary : List (String × Int)) : NarrativeMetrics :=
  { users_joined := (alookup "users_joined" summary).getD 0
    users_departed := (alookup "users_departed" summary).getD 0
    net_user_change := (alookup "net_user_change" summary).getD 0
    new_devices := (alookup "new_devices" summary).getD 0
    retired_devices := (alookup "retired_devices" summary).getD 0
    backup_coverage_percent := (alookup "backup_coverage_percent" summary).getD 0
    devices_without_backup := (alookup "devices_without_backup" summary).getD 0
    phishing_failures := (alookup "phishing_failures" summary).getD 0
    critical_edr_incidents := (alookup "critical_edr_incidents" summary).getD 0 }

-- =====================================================
-- Backup Enricher (src/scripts/enrichers/backup_enricher.py)
-- =====================================================

/-- backup_enricher.normalize_device: lower-case, drop the username suffix
after `_`, strip the U+FFFE artifact, trim. -/
def normalize_device (name : String) : String :=
  pyStrip (pyReplace ((pySplitOn (pyLower name) "_").headD "") "￾" "")

/-- A device entry of the parsed backup report (`enabled` + `status`). -/
structure BackupDev where
  enabled : Bool
  status : String
deriving DecidableEq, Repr

/-- Python `dict.setdefault(name, []).append(id)`: appends `id` to the list
bound to `name`, creating the binding at the end if absent. -/
def setdefaultAppend : List (String × List String) → String → String → List (String × List String)
  | [], n, id => [(n, [id])]
  | p :: rest, n, id =>
      if p.1 = n then (p.1, p.2 ++ [id]) :: rest else p :: setdefaultAppend rest n id

/-- backup_enricher.build_device_index (lines 55-70): groups asset ids by
non-empty normalized device name; assets whose name normalizes to `""` are
not indexed at all. -/
def build_device_index (assets : AssetMap) : List (String × List String) :=
  assets.foldl (fun idx kv =>
    let n := normalize_device kv.2.device_name
    if n = "" then idx else setdefaultAppend idx n kv.1) []

/-- The tail of backup_enricher.parse_backup_pdf (lines 145-157): failure
rows override the main table, pending-installation rows override both. -/
def apply_failures_pending (devices : List (String × BackupDev))
    (failures pending : List String) : List (String × BackupDev) :=
  pending.foldl (fun acc n => insertOverwrite acc n ⟨false, "pending_installation"⟩)
    (failures.foldl (fun acc n => insertOverwrite acc n ⟨true, "failed"⟩) devices)

/-- The risk-level ladder of enrich_assets_with_backup (lines 185-192). -/
def riskOf (status : String) : String :=
  if status = "healthy" then "low"
  else if status = "in_progress" ∨ status = "warning" then "medium"
  else if status = "failed" then "high"
  else "unknown"

/-- The backup_state written for one asset: from the report entry when the
device is mentioned, else the conservative default (lines 181-199). -/
def applyBackup : Option BackupDev → BackupState
  | some bk => ⟨bk.enabled, bk.status, riskOf bk.status⟩
  | none => ⟨true, "assumed_enabled", "medium"⟩

/-- Overwrite an asset's backup_state. -/
def setBackup (a : Asset) (st : BackupState) : Asset := { a with backup_state := some st }

/-- `assets["assets"][asset_id]["backup_state"] = ...` on the embedded map. -/
def updateAsset (m : AssetMap) (id : String) (st : BackupState) : AssetMap :=
  m.map (fun kv => if kv.1 = id then (kv.1, setBackup kv.2 st) else kv)

/-- The inner `for asset_id in asset_ids` loop. -/
def applyToIds (m : AssetMap) (ids : List String) (st : BackupState) : AssetMap :=
  ids.foldl (fun acc id => updateAsset acc id st) m

/-- backup_enricher.enrich_assets_with_backup (lines 166-199): for every
index group, apply the report entry (or the conservative default) to every
asset id in the group. -/
def enrich_assets_with_backup (m : AssetMap) (device_index : List (String × List String))
    (backup_devices : List (String × BackupDev)) : AssetMap :=
  device_index.foldl (fun acc p => applyToIds acc p.2 (applyBackup (alookup p.1 backup_devices))) m

/-- One full backup-enrichment pass as run_backup_enrichment composes it:
build the index from the snapshot, then enrich. -/
def run_backup_pass (m : AssetMap) (backup_devices : List (String × BackupDev)) : AssetMap :=
  enrich_assets_with_backup m (build_device_index m) backup_devices

/-- The backup state an asset id ends up assigned by folding the device
index, with later index entries overriding earlier ones (`none` when no
index group contains the id).  Characterizes `enrich_assets_with_backup`. -/
def assignFor (bd : List (String × BackupDev)) (k : String) :
    List (String × List String) → Option BackupState
  | [] => none
  | p :: rest =>
      match assignFor bd k rest with
      | some st => some st
      | none => if k ∈ p.2 then some (applyBackup (alookup p.1 bd)) else none

/-- Apply the assignment computed by `assignFor` to one asset value. -/
def applyAssign (bd : List (String × BackupDev)) (idx : List (String × List String))
    (k : String) (v : Asset) : Asset :=
  match assignFor bd k idx with
  | none => v
  | some st => setBackup v st

-- =====================================================
-- Phishing / EDR / Dark-web Enrichers
-- =====================================================

/-- A row of the parsed phishing report. -/
structure PhishRec where
  sent : Nat
  clicked : Nat
deriving DecidableEq, Repr

/-- The body of the phishing enrichment loop for one user (lines 103-120):
a matched report entry overwrites the phishing risk signals; an unmatched
user gets zero campaigns/failures and risk "unknown" (phishing_clicked is
left untouched in that branch). -/
def phishing_update (pd : List (String × PhishRec)) (email : String) (u : User) : User :=
  match alookup email pd with
  | some ph =>
      { u with risk_signals :=
          { u.risk_signals with
              phishing_clicked := ph.clicked > 0
              phishing_failures := ph.clicked
              phishing_campaigns := ph.sent
              phishing_risk := some (if ph.clicked > 0 then "high" else "low") } }
  | none =>
      { u with risk_signals :=
          { u.risk_signals with
              phishing_campaigns := 0
              phishing_failures := 0
              phishing_risk := some "unknown" } }

/-- phishing_enricher.enrich_users_with_phishing (lines 98-120). -/
def enrich_users_with_phishing (users : UserMap) (pd : List (String × PhishRec)) : UserMap :=
  users.map (fun kv => (kv.1, phishing_update pd kv.1 kv.2))

/-- A row of the parsed EDR report. -/
structure EdrRec where
  alerts : Nat
  incidents : Nat
deriving DecidableEq, Repr

/-- The body of the EDR enrichment loop for one asset (lines 102-125). -/
def edr_update (edr : List (String × EdrRec)) (a : Asset) : Asset :=
  let serial := normalize_serial (a.serial_number.getD "")
  if serial = "" then a
  else
    match alookup serial edr with
    | some e =>
        { a with security_state :=
            { a.security_state with
                edr_installed := true
                edr_alerts := e.alerts
                edr_incidents := e.incidents
                risk_level := some
                  (if e.incidents > 0 then "high"
                   else if e.alerts > 0 then "medium" else "low") } }
    | none =>
        { a with security_state :=
            { a.security_state with
                edr_installed := false
                risk_level := some "unknown" } }

/-- edr_enricher.enrich_assets_with_edr (lines 97-125). -/
def enrich_assets_with_edr (assets : AssetMap) (edr : List (String × EdrRec)) : AssetMap :=
  assets.map (fun kv => (kv.1, edr_update edr kv.2))

/-- A row of the parsed dark-web report (`exposed` is always true). -/
structure DarkRec where
  source : String
  severity : String
deriving DecidableEq, Repr

/-- The body of the dark-web enrichment loop for one user (lines 117-128). -/
def darkweb_update (dd : List (String × DarkRec)) (email : String) (u : User) : User :=
  match alookup email dd with
  | some e =>
      { u with risk_signals :=
          { u.risk_signals with
              dark_web_exposed := true
              dark_web_source := some e.source
              dark_web_severity := some e.severity } }
  | none =>
      { u with risk_signals :=
          { u.risk_signals with
              dark_web_exposed := false
              dark_web_severity := some "none" } }

/-- darkweb_enricher.enrich_users_with_darkweb (lines 112-128). -/
def enrich_users_with_darkweb (users : UserMap) (dd : List (String × DarkRec)) : UserMap :=
  users.map (fun kv => (kv.1, darkweb_update dd kv.1 kv.2))

-- =====================================================
-- Sample records (fixtures for concrete instances)
-- =====================================================

/-- A minimal user record with a chosen m365 flag, for concrete instances. -/
def sampleUser (m365 : Bool) : User :=
  { name := "U", status := "active", first_seen := some "2025-01", last_seen := "2025-01"
    services := ⟨m365, false, false, false, false⟩
    risk_signals := ⟨false, false, 0, 0, 0, none, none, none⟩ }

/-- A minimal asset record with a chosen device name and serial, for
concrete instances. -/
def mkAsset (dn : String) (sn : Option String) : Asset :=
  { device_name := dn, serial_number := sn, assigned_user := none
    type := "workstation", model := "M", os := "W", status := "active"
    first_seen := some "2025-01", last_seen := "2025-01"
    security_state := ⟨false, false, false, 0, 0, none⟩, backup_state := none }

-- =====================================================
-- Association-list lemmas
-- =====================================================

theorem alookup_nil (k : String) : alookup (α := α) k [] = none := rfl

theorem alookup_cons (k : String) (kv : String × α) (rest : List (String × α)) :
    alookup k (kv :: rest) = if kv.1 = k then some kv.2 else alookup k rest := rfl

theorem alookup_append (k : String) (a b : List (String × α)) :
    alookup k (a ++ b) = ((alookup k a).orElse (fun _ => alookup k b)) := by
  induction a with
  | nil => simp [alookup]
  | cons kv rest ih =>
      simp only [List.cons_append, alookup_cons]
      split
      · rfl
      · exact ih

theorem alookup_eq_none_iff (k : String) (m : List (String × α)) :
    alookup k m = none ↔ k ∉ keysOf m := by
  induction m with
  | nil => simp [alookup, keysOf]
  | cons kv rest ih =>
      simp only [alookup_cons, keysOf, List.map_cons, List.mem_cons]
      split
      · simp_all
      · simp only [ih, keysOf]
        constructor
        · intro h hk
          rcases hk with h1 | h2
          · exact (by simp_all)
          · exact h h2
        · intro h
          exact fun hk => h (Or.inr hk)

theorem alookup_isSome_of_mem_keys (k : String) (m : List (String × α))
    (h : k ∈ keysOf m) : ∃ v, alookup k m = some v := by
  cases hv : alookup k m with
  | none => exact absurd ((alookup_eq_none_iff k m).mp hv) (by simp [h])
  | some v => exact ⟨v, rfl⟩

theorem mem_keys_of_alookup_eq_some (k : String) (m : List (String × α)) (v : α)
    (h : alookup k m = some v) : k ∈ keysOf m := by
  by_contra hk
  rw [← alookup_eq_none_iff] at hk
  simp [h] at hk

theorem alookup_map_entry (g : String → α → β) (k : String) (m : List (String × α)) :
    alookup k (m.map (fun kv => (kv.1, g kv.1 kv.2))) = (alookup k m).map (g k) := by
  induction m with
  | nil => simp [alookup]
  | cons kv rest ih =>
      simp only [List.map_cons, alookup_cons]
      split
      · next h => subst h; rfl
      · exact ih

theorem keysOf_map_entry (g : String → α → β) (m : List (String × α)) :
    keysOf (m.map (fun kv => (kv.1, g kv.1 kv.2))) = keysOf m := by
  induction m with
  | nil => rfl
  | cons kv rest ih => simp only [List.map_cons, keysOf, List.map_cons] at *; rw [ih]

-- =====================================================
-- sortedKeyDiff lemmas (for C1)
-- =====================================================

theorem sortedKeyDiff_mem (a b : List String) (k : String) :
    k ∈ sortedKeyDiff a b ↔ (k ∈ a ∧ k ∉ b) := by
  unfold sortedKeyDiff sortStr
  rw [(List.perm_insertionSort (· ≤ ·) _).mem_iff]
  simp [List.mem_filter, List.mem_dedup]

theorem sortedKeyDiff_sorted (a b : List String) :
    (sortedKeyDiff a b).Sorted (· ≤ ·) := by
  unfold sortedKeyDiff sortStr
  exact List.sorted_insertionSort (· ≤ ·) _

theorem sortedKeyDiff_nodup (a b : List String) :
    (sortedKeyDiff a b).Nodup := by
  unfold sortedKeyDiff sortStr
  exact ((List.perm_insertionSort (· ≤ ·) _).nodup_iff).mpr (a.nodup_dedup.filter _)

-- =====================================================
-- C1: diff set algebra and partition property
-- =====================================================

/-- C1: for every pair of snapshots of the same entity kind, the diff's
added set is `keys(curr) - keys(prev)` and its removed set is
`keys(prev) - keys(curr)`, both sorted lexicographically and duplicate-free;
consequently `new ∪ (prev ∩ curr) = keys(curr)` and
`removed ∪ (prev ∩ curr) = keys(prev)`, with no key lost or double-counted
(the added/removed sets are disjoint from the intersection). -/
theorem diff_sets_partition (pu cu : UserMap) (pa ca : AssetMap) (uio aio : List String) :
    ((diff_users pu cu uio).new_users.Sorted (· ≤ ·) ∧
     (diff_users pu cu uio).resigned_users.Sorted (· ≤ ·) ∧
     (diff_assets pa ca aio).new_devices.Sorted (· ≤ ·) ∧
     (diff_assets pa ca aio).retired_devices.Sorted (· ≤ ·)) ∧
    ((diff_users pu cu uio).new_users.Nodup ∧
     (diff_users pu cu uio).resigned_users.Nodup ∧
     (diff_assets pa ca aio).new_devices.Nodup ∧
     (diff_assets pa ca aio).retired_devices.Nodup) ∧
    (∀ k, k ∈ (diff_users pu cu uio).new_users ↔ k ∈ keysOf cu ∧ k ∉ keysOf pu) ∧
    (∀ k, k ∈ (diff_users pu cu uio).resigned_users ↔ k ∈ keysOf pu ∧ k ∉ keysOf cu) ∧
    (∀ k, k ∈ (diff_assets pa ca aio).new_devices ↔ k ∈ keysOf ca ∧ k ∉ keysOf pa) ∧
    (∀ k, k ∈ (diff_assets pa ca aio).retired_devices ↔ k ∈ keysOf pa ∧ k ∉ keysOf ca) ∧
    (∀ k, (k ∈ (diff_users pu cu uio).new_users ∨ (k ∈ keysOf pu ∧ k ∈ keysOf cu)) ↔
      k ∈ keysOf cu) ∧
    (∀ k, (k ∈ (diff_users pu cu uio).resigned_users ∨ (k ∈ keysOf pu ∧ k ∈ keysOf cu)) ↔
      k ∈ keysOf pu) ∧
    (∀ k, ¬(k ∈ (diff_users pu cu uio).new_users ∧ k ∈ keysOf pu ∧ k ∈ keysOf cu)) ∧
    (∀ k, ¬(k ∈ (diff_users pu cu uio).resigned_users ∧ k ∈ keysOf pu ∧ k ∈ keysOf cu)) ∧
    (∀ k, (k ∈ (diff_assets pa ca aio).new_devices ∨ (k ∈ keysOf pa ∧ k ∈ keysOf ca)) ↔
      k ∈ keysOf ca) ∧
    (∀ k, (k ∈ (diff_assets pa ca aio).retired_devices ∨ (k ∈ keysOf pa ∧ k ∈ keysOf ca)) ↔
      k ∈ keysOf pa) ∧
    (∀ k, ¬(k ∈ (diff_assets pa ca aio).new_devices ∧ k ∈ keysOf pa ∧ k ∈ keysOf ca)) ∧
    (∀ k, ¬(k ∈ (diff_assets pa ca aio).retired_devices ∧ k ∈ keysOf pa ∧ k ∈ keysOf ca)) := by
  simp only [diff_users, diff_assets]
  refine ⟨⟨?_, ?_, ?_, ?_⟩, ⟨?_, ?_, ?_, ?_⟩, ?_, ?_, ?_, ?_, ?_, ?_, ?_, ?_, ?_, ?_, ?_, ?_⟩
  · exact sortedKeyDiff_sorted _ _
  · exact sortedKeyDiff_sorted _ _
  · exact sortedKeyDiff_sorted _ _
  · exact sortedKeyDiff_sorted _ _
  · exact sortedKeyDiff_nodup _ _
  · exact sortedKeyDiff_nodup _ _
  · exact sortedKeyDiff_nodup _ _
  · exact sortedKeyDiff_nodup _ _
  · exact fun k => sortedKeyDiff_mem _ _ k
  · exact fun k => sortedKeyDiff_mem _ _ k
  · exact fun k => sortedKeyDiff_mem _ _ k
  · exact fun k => sortedKeyDiff_mem _ _ k
  · intro k
    rw [sortedKeyDiff_mem]
    constructor
    · rintro (⟨h1, _⟩ | ⟨_, h2⟩) <;> assumption
    · intro h
      by_cases hp : k ∈ keysOf pu
      · exact Or.inr ⟨hp, h⟩
      · exact Or.inl ⟨h, hp⟩
  · intro k
    rw [sortedKeyDiff_mem]
    constructor
    · rintro (⟨h1, _⟩ | ⟨h1, _⟩) <;> assumption
    · intro h
      by_cases hc : k ∈ keysOf cu
      · exact Or.inr ⟨h, hc⟩
      · exact Or.inl ⟨h, hc⟩
  · intro k
    rw [sortedKeyDiff_mem]
    rintro ⟨⟨_, h2⟩, h3, _⟩
    exact h2 h3
  · intro k
    rw [sortedKeyDiff_mem]
    rintro ⟨⟨_, h2⟩, _, h4⟩
    exact h2 h4
  · intro k
    rw [sortedKeyDiff_mem]
    constructor
    · rintro (⟨h1, _⟩ | ⟨_, h2⟩) <;> assumption
    · intro h
      by_cases hp : k ∈ keysOf pa
      · exact Or.inr ⟨hp, h⟩
      · exact Or.inl ⟨h, hp⟩
  · intro k
    rw [sortedKeyDiff_mem]
    constructor
    · rintro (⟨h1, _⟩ | ⟨h1, _⟩) <;> assumption
    · intro h
      by_cases hc : k ∈ keysOf ca
      · exact Or.inr ⟨h, hc⟩
      · exact Or.inl ⟨h, hc⟩
  · intro k
    rw [sortedKeyDiff_mem]
    rintro ⟨⟨_, h2⟩, h3, _⟩
    exact h2 h3
  · intro k
    rw [sortedKeyDiff_mem]
    rintro ⟨⟨_, h2⟩, _, h4⟩
    exact h2 h4

-- =====================================================
-- C2: backup_coverage_percent
-- =====================================================

/-- C2 (code-level evidence): the `summary_metrics` block emitted by
insight_engine.build_summary consists, for EVERY input, of exactly the four
keys `total_users`, `total_assets`, `user_change`, `asset_change`; in
particular `backup_coverage_percent` is never among them, and for the
zero-asset snapshot the narrative layer's `compute_metrics` therefore falls
back to its `.get(..., 0)` default, reporting 0 (no division is ever
performed). -/
theorem build_summary_lacks_backup_coverage :
    (∀ (u : UserMap) (a : AssetMap) (d : DiffData),
      keysOf (build_summary u a d) =
        ["total_users", "total_assets", "user_change", "asset_change"]) ∧
    "backup_coverage_percent" ∉ keysOf (build_summary [] [] empty_diff) ∧
    (compute_metrics (build_summary [] [] empty_diff)).backup_coverage_percent = 0 := by
  refine ⟨fun u a d => rfl, by decide, by decide⟩

-- =====================================================
-- C4: missing previous snapshot handling
-- =====================================================

/-- C4 counterexample: diff_engine.load_snapshot maps a MISSING snapshot
file to the empty mapping `{}` — exactly the value it returns for a present
but empty snapshot — so a load of a missing month does NOT return an
explicit not-found result distinguishable from an empty snapshot. -/
theorem load_snapshot_missing_equals_empty :
    load_snapshot (α := User) none = ([] : UserMap) ∧
    load_snapshot (α := User) none = load_snapshot (some ([] : UserMap)) :=
  ⟨rfl, rfl⟩

/-- C4 amended: the monthly runner skips the Diff Engine entirely whenever
either previous-month snapshot file is absent (no diff is produced), and the
insight engine substitutes the explicit empty-diff sentinel (all-zero
metrics, empty lists) when the diff file is absent; however,
diff_engine.load_snapshot itself returns an empty mapping (not an explicit
not-found) for a missing file — only insight_engine.load_json returns an
explicit `None`. -/
theorem missing_previous_month_handling :
    (∀ (paf : Option AssetMap) (cu : UserMap) (ca : AssetMap) (fm tm ts : String)
      (uio aio : List String),
      run_month_diff_stage none paf cu ca fm tm ts uio aio = none) ∧
    (∀ (puf : Option UserMap) (cu : UserMap) (ca : AssetMap) (fm tm ts : String)
      (uio aio : List String),
      run_month_diff_stage puf none cu ca fm tm ts uio aio = none) ∧
    (∀ (u : UserMap) (a : AssetMap),
      run_insight_engine u a none = mk_insights u a empty_diff) := by
  refine ⟨?_, ?_, ?_⟩
  · intro paf cu ca fm tm ts uio aio
    cases paf <;> rfl
  · intro puf cu ca fm tm ts uio aio
    cases puf <;> rfl
  · intro u a
    rfl

-- =====================================================
-- C9: determinism of diff and insight derivation
-- =====================================================

theorem alookup_filterMap_pair (io : List String) (f : String → Option β) (k : String) :
    alookup k (io.filterMap (fun x => (f x).map (fun v => (x, v)))) =
      if k ∈ io then f k else none := by
  induction io with
  | nil => simp [alookup]
  | cons x rest ih =>
      simp only [List.filterMap_cons]
      cases hfx : f x with
      | none =>
          simp only [Option.map_none']
          rw [ih]
          by_cases hk : k = x
          · subst hk
            simp only [List.mem_cons, true_or, if_true]
            rw [hfx]
            split <;> rfl
          · have hmem : (k ∈ x :: rest) ↔ (k ∈ rest) := by simp [List.mem_cons, hk]
            simp [hmem]
      | some v =>
          simp only [Option.map_some', alookup_cons]
          by_cases hk : x = k
          · subst hk
            simp [hfx]
          · rw [if_neg hk, ih]
            have hne : ¬(k = x) := fun h => hk h.symm
            have hmem : (k ∈ x :: rest) ↔ (k ∈ rest) := by simp [List.mem_cons, hne]
            simp [hmem]

/-- C9 amended: the diff computation and the insight derivation are pure
functions of their inputs.  For a fixed iteration order of the Python set
`prev_set & curr_set`, two runs of generate_diff on identical snapshots are
identical except for `generated_at`.  For two runs whose set iteration
orders differ (as happens across interpreter processes, where string hashes
are randomized), the sorted lists, metrics and alerts are still identical
and the `service_changes` / `ownership_changes` mappings are identical AS
MAPPINGS (same value at every key) — only their entry order may differ — and
the insight bundle derived from the two diffs is byte-for-byte identical
(the insight document carries no timestamp at all). -/
theorem diff_and_derive_deterministic (pu cu : UserMap) (pa ca : AssetMap)
    (u : UserMap × AssetMap) (fm tm t1 t2 : String)
    (uio1 uio2 aio1 aio2 : List String)
    (hu1 : ∀ x, x ∈ uio1 ↔ (x ∈ keysOf pu ∧ x ∈ keysOf cu))
    (hu2 : ∀ x, x ∈ uio2 ↔ (x ∈ keysOf pu ∧ x ∈ keysOf cu))
    (ha1 : ∀ x, x ∈ aio1 ↔ (x ∈ keysOf pa ∧ x ∈ keysOf ca))
    (ha2 : ∀ x, x ∈ aio2 ↔ (x ∈ keysOf pa ∧ x ∈ keysOf ca)) :
    (stripTs (generate_diff pu cu pa ca fm tm t1 uio1 aio1) =
      stripTs (generate_diff pu cu pa ca fm tm t2 uio1 aio1)) ∧
    ((diff_users pu cu uio1).new_users = (diff_users pu cu uio2).new_users ∧
     (diff_users pu cu uio1).resigned_users = (diff_users pu cu uio2).resigned_users ∧
     ∀ k, alookup k (diff_users pu cu uio1).service_changes =
       alookup k (diff_users pu cu uio2).service_changes) ∧
    ((diff_assets pa ca aio1).new_devices = (diff_assets pa ca aio2).new_devices ∧
     (diff_assets pa ca aio1).retired_devices = (diff_assets pa ca aio2).retired_devices ∧
     ∀ k, alookup k (diff_assets pa ca aio1).ownership_changes =
       alookup k (diff_assets pa ca aio2).ownership_changes) ∧
    ((generate_diff pu cu pa ca fm tm t1 uio1 aio1).alerts =
      (generate_diff pu cu pa ca fm tm t2 uio2 aio2).alerts ∧
     (generate_diff pu cu pa ca fm tm t1 uio1 aio1).metrics =
      (generate_diff pu cu pa ca fm tm t2 uio2 aio2).metrics) ∧
    (mk_insights u.1 u.2 (generate_diff pu cu pa ca fm tm t1 uio1 aio1).data =
      mk_insights u.1 u.2 (generate_diff pu cu pa ca fm tm t2 uio2 aio2).data) := by
  refine ⟨rfl, ⟨rfl, rfl, ?_⟩, ⟨rfl, rfl, ?_⟩, ⟨rfl, rfl⟩, rfl⟩
  · intro k
    simp only [diff_users]
    rw [alookup_filterMap_pair, alookup_filterMap_pair]
    by_cases hk : k ∈ keysOf pu ∧ k ∈ keysOf cu
    · rw [if_pos ((hu1 k).mpr hk), if_pos ((hu2 k).mpr hk)]
    · rw [if_neg (fun h => hk ((hu1 k).mp h)), if_neg (fun h => hk ((hu2 k).mp h))]
  · intro k
    simp only [diff_assets]
    rw [alookup_filterMap_pair, alookup_filterMap_pair]
    by_cases hk : k ∈ keysOf pa ∧ k ∈ keysOf ca
    · rw [if_pos ((ha1 k).mpr hk), if_pos ((ha2 k).mpr hk)]
    · rw [if_neg (fun h => hk ((ha1 k).mp h)), if_neg (fun h => hk ((ha2 k).mp h))]

/-- C9 counterexample: with identical input snapshots, two legitimate
iteration orders of the set `prev_set & curr_set` (any permutation of the
key intersection can occur, since Python string hashing is seed-randomized
across processes) produce diff documents whose `service_changes` mappings
list their entries in different orders — the serialized outputs are not
byte-for-byte identical even after removing `generated_at`. -/
theorem service_changes_order_sensitive :
    ((keysOf ([("a", sampleUser false), ("b", sampleUser false)] : UserMap)).filter
      (fun k => decide (k ∈ keysOf ([("a", sampleUser true), ("b", sampleUser true)] : UserMap)))
      = ["a", "b"]) ∧
    (["a", "b"] : List String).Perm ["b", "a"] ∧
    diff_users [("a", sampleUser false), ("b", sampleUser false)]
        [("a", sampleUser true), ("b", sampleUser true)] ["a", "b"] ≠
      diff_users [("a", sampleUser false), ("b", sampleUser false)]
        [("a", sampleUser true), ("b", sampleUser true)] ["b", "a"] := by
  refine ⟨by decide, by decide, by decide⟩

/-- Witness for the determinism theorem at a concrete input: both iteration
orders enumerate the key intersection of the concrete snapshots, and the
service-change mappings of the two runs agree at every key. -/
theorem diff_and_derive_deterministic_witness :
    (∀ x, x ∈ (["a", "b"] : List String) ↔
      (x ∈ keysOf ([("a", sampleUser false), ("b", sampleUser false)] : UserMap) ∧
       x ∈ keysOf ([("a", sampleUser true), ("b", sampleUser true)] : UserMap))) ∧
    (∀ k, alookup k (diff_users [("a", sampleUser false), ("b", sampleUser false)]
        [("a", sampleUser true), ("b", sampleUser true)] ["a", "b"]).service_changes =
      alookup k (diff_users [("a", sampleUser false), ("b", sampleUser false)]
        [("a", sampleUser true), ("b", sampleUser true)] ["b", "a"]).service_changes) := by
  have hmem : ∀ x, x ∈ (["a", "b"] : List String) ↔
      (x ∈ keysOf ([("a", sampleUser false), ("b", sampleUser false)] : UserMap) ∧
       x ∈ keysOf ([("a", sampleUser true), ("b", sampleUser true)] : UserMap)) := by
    intro x
    show x ∈ (["a", "b"] : List String) ↔ (x ∈ ["a", "b"] ∧ x ∈ ["a", "b"])
    simp
  have hmem2 : ∀ x, x ∈ (["b", "a"] : List String) ↔
      (x ∈ keysOf ([("a", sampleUser false), ("b", sampleUser false)] : UserMap) ∧
       x ∈ keysOf ([("a", sampleUser true), ("b", sampleUser true)] : UserMap)) := by
    intro x
    show x ∈ (["b", "a"] : List String) ↔ (x ∈ ["a", "b"] ∧ x ∈ ["a", "b"])
    simp only [List.mem_cons, List.not_mem_nil, or_false]
    tauto
  have hnil : ∀ x, x ∈ ([] : List String) ↔
      (x ∈ keysOf ([] : AssetMap) ∧ x ∈ keysOf ([] : AssetMap)) := by
    intro x; simp [keysOf]
  exact ⟨hmem,
    (diff_and_derive_deterministic
      [("a", sampleUser false), ("b", sampleUser false)]
      [("a", sampleUser true), ("b", sampleUser true)]
      [] [] ([], []) "2025-01" "2025-02" "t1" "t2"
      ["a", "b"] ["b", "a"] [] []
      hmem hmem2 hnil hnil).2.1.2.2⟩

-- =====================================================
-- pyMerge / retirement lemmas (for C6, C7)
-- =====================================================

theorem alookup_filter_key (q : String → Bool) (b : List (String × α)) (k : String)
    (hq : q k = true) :
    alookup k (b.filter (fun kv => q kv.1)) = alookup k b := by
  induction b with
  | nil => rfl
  | cons kv rest ih =>
      by_cases hk : kv.1 = k
      · subst hk
        rw [List.filter_cons, if_pos (by simp [hq]), alookup_cons, if_pos rfl,
          alookup_cons, if_pos rfl]
      · rw [List.filter_cons]
        split
        · rw [alookup_cons, if_neg hk, ih, alookup_cons, if_neg hk]
        · rw [ih, alookup_cons, if_neg hk]

theorem keysOf_append (a b : List (String × α)) :
    keysOf (a ++ b) = keysOf a ++ keysOf b := by
  simp [keysOf]

theorem alookup_resolve_first_seen_assets (current previous : AssetMap) (month : String)
    (k : String) :
    alookup k (resolve_first_seen_assets current previous month) =
      (alookup k current).map (fun a =>
        { a with first_seen :=
            match alookup k previous with
            | some p => p.first_seen
            | none => some month }) := by
  unfold resolve_first_seen_assets
  exact alookup_map_entry
    (fun key a => ({ a with
      first_seen :=
        match alookup key previous with
        | some p => p.first_seen
        | none => some month } : Asset)) k current

theorem keysOf_resolve_first_seen_assets (current previous : AssetMap) (month : String) :
    keysOf (resolve_first_seen_assets current previous month) = keysOf current := by
  unfold resolve_first_seen_assets
  exact keysOf_map_entry
    (fun key a => ({ a with
      first_seen :=
        match alookup key previous with
        | some p => p.first_seen
        | none => some month } : Asset)) current

theorem alookup_mark_retired (current previous : AssetMap) (k : String) :
    alookup k (mark_retired_assets current previous) =
      if k ∈ keysOf current then none
      else (alookup k previous).map (fun a => { a with status := "retired" }) := by
  induction previous with
  | nil =>
      show (none : Option Asset) = _
      split <;> rfl
  | cons kv rest ih =>
      show alookup k (if kv.1 ∈ keysOf current then _ else _) = _
      by_cases hmem : kv.1 ∈ keysOf current
      · rw [if_pos hmem, ih]
        by_cases hk : k ∈ keysOf current
        · rw [if_pos hk, if_pos hk]
        · rw [if_neg hk, if_neg hk, alookup_cons]
          have hne : kv.1 ≠ k := fun h => hk (h ▸ hmem)
          rw [if_neg hne]
      · rw [if_neg hmem, alookup_cons]
        by_cases hk : kv.1 = k
        · subst hk
          rw [if_pos rfl, if_neg hmem, alookup_cons, if_pos rfl]
          rfl
        · rw [if_neg hk, ih, alookup_cons, if_neg hk]

theorem mem_mark_retired_key (current previous : AssetMap) (kv : String × Asset)
    (h : kv ∈ mark_retired_assets current previous) : kv.1 ∉ keysOf current := by
  induction previous with
  | nil => cases h
  | cons kv0 rest ih =>
      by_cases hmem : kv0.1 ∈ keysOf current
      · rw [show mark_retired_assets current (kv0 :: rest) =
            mark_retired_assets current rest from if_pos hmem] at h
        exact ih h
      · rw [show mark_retired_assets current (kv0 :: rest) =
            (kv0.1, { kv0.2 with status := "retired" }) :: mark_retired_assets current rest
            from if_neg hmem] at h
        rcases List.mem_cons.mp h with h1 | h2
        · subst h1; exact hmem
        · exact ih h2

theorem keysOf_mark_retired (current previous : AssetMap) :
    keysOf (mark_retired_assets current previous) =
      (keysOf previous).filter (fun k => decide (k ∉ keysOf current)) := by
  induction previous with
  | nil => rfl
  | cons kv rest ih =>
      show keysOf (if kv.1 ∈ keysOf current then _ else _) =
        List.filter _ (kv.1 :: keysOf rest)
      rw [List.filter_cons]
      by_cases hmem : kv.1 ∈ keysOf current
      · rw [if_pos hmem, if_neg (by simp [hmem]), ih]
      · rw [if_neg hmem, if_pos (by simp [hmem])]
        show kv.1 :: keysOf _ = _
        rw [ih]

theorem alookup_pyMerge_right (a b : List (String × α)) (k : String)
    (hk : k ∉ keysOf a) :
    alookup k (pyMerge a b) = alookup k b := by
  unfold pyMerge
  rw [alookup_append]
  have h1 : alookup k (a.map (fun kv => (kv.1, (alookup kv.1 b).getD kv.2))) = none := by
    rw [alookup_map_entry (fun key v => (alookup key b).getD v) k a]
    rw [(alookup_eq_none_iff k a).mpr hk]
    rfl
  rw [h1]
  show alookup k (b.filter _) = _
  exact alookup_filter_key (fun key => decide (key ∉ keysOf a)) b k (by simp [hk])

theorem alookup_pyMerge_left (a b : List (String × α)) (k : String) (v : α)
    (hv : alookup k a = some v) :
    alookup k (pyMerge a b) = some ((alookup k b).getD v) := by
  unfold pyMerge
  rw [alookup_append, alookup_map_entry (fun key w => (alookup key b).getD w) k a, hv]
  rfl

theorem keysOf_pyMerge (a b : List (String × α)) :
    keysOf (pyMerge a b) =
      keysOf a ++ keysOf (b.filter (fun kv => decide (kv.1 ∉ keysOf a))) := by
  unfold pyMerge
  rw [keysOf_append]
  congr 1
  exact keysOf_map_entry (fun key v => (alookup key b).getD v) a

-- =====================================================
-- C6: retirement round-trip
-- =====================================================

/-- C6: every asset identity present in the previous snapshot but absent
from the current month's input is included in the output snapshot with
`status = "retired"` and all other fields (device_name, serial_number,
first_seen, last_seen, ...) unchanged from the previous snapshot, and the
output key set is the union of the current-month keys and the carried-forward
retired keys. -/
theorem retired_assets_carried_forward (current previous : AssetMap) (month : String) :
    (∀ k, k ∈ keysOf previous → k ∉ keysOf current →
      alookup k (parse_asset_list_core current previous month) =
        (alookup k previous).map (fun a => { a with status := "retired" })) ∧
    (∀ k a, k ∉ keysOf current → alookup k previous = some a →
      ∃ a2, alookup k (parse_asset_list_core current previous month) = some a2 ∧
        a2.device_name = a.device_name ∧ a2.serial_number = a.serial_number ∧
        a2.status = "retired" ∧ a2.first_seen = a.first_seen ∧ a2.last_seen = a.last_seen) ∧
    keysOf (parse_asset_list_core current previous month) =
      keysOf current ++ (keysOf previous).filter (fun k => decide (k ∉ keysOf current)) := by
  have hkeys : keysOf (resolve_first_seen_assets current previous month) = keysOf current :=
    keysOf_resolve_first_seen_assets current previous month
  have hlook : ∀ k, k ∉ keysOf current →
      alookup k (parse_asset_list_core current previous month) =
        (alookup k previous).map (fun a => { a with status := "retired" }) := by
    intro k hcur
    unfold parse_asset_list_core
    rw [alookup_pyMerge_right _ _ k (by rw [hkeys]; exact hcur)]
    rw [alookup_mark_retired]
    rw [if_neg (by rw [hkeys]; exact hcur)]
  refine ⟨fun k _ hcur => hlook k hcur, ?_, ?_⟩
  · intro k a hcur ha
    refine ⟨{ a with status := "retired" }, ?_, rfl, rfl, rfl, rfl, rfl⟩
    rw [hlook k hcur, ha]
    rfl
  · unfold parse_asset_list_core
    rw [keysOf_pyMerge]
    have hfix : (mark_retired_assets (resolve_first_seen_assets current previous month)
        previous).filter
        (fun kv => decide (kv.1 ∉ keysOf (resolve_first_seen_assets current previous month))) =
        mark_retired_assets (resolve_first_seen_assets current previous month) previous := by
      apply List.filter_eq_self.mpr
      intro kv hkv
      simpa using mem_mark_retired_key _ previous kv hkv
    rw [hfix, hkeys, keysOf_mark_retired, hkeys]

/-- Witness for C6 at a concrete input: an asset present in month M's
snapshot and absent from month M+1's input reappears retired with identical
fields. -/
theorem retired_assets_carried_forward_witness :
    ("SN:A" ∈ keysOf ([("SN:A", mkAsset "WS-01" (some "A"))] : AssetMap)) ∧
    ("SN:A" ∉ keysOf ([] : AssetMap)) ∧
    alookup "SN:A" (parse_asset_list_core [] [("SN:A", mkAsset "WS-01" (some "A"))] "2025-02") =
      some { mkAsset "WS-01" (some "A") with status := "retired" } :=
  ⟨by decide, by decide,
    (retired_assets_carried_forward [] [("SN:A", mkAsset "WS-01" (some "A"))] "2025-02").1
      "SN:A" (by decide) (by decide)⟩

-- =====================================================
-- C7: first_seen carry rule and multi-month stability
-- =====================================================

theorem alookup_resolve_first_seen_users (current previous : UserMap) (month : String)
    (k : String) :
    alookup k (resolve_first_seen_users current previous month) =
      (alookup k current).map (fun u =>
        { u with first_seen :=
            match alookup k previous with
            | some p => p.first_seen
            | none => some month }) := by
  unfold resolve_first_seen_users
  exact alookup_map_entry
    (fun key u => ({ u with
      first_seen :=
        match alookup key previous with
        | some p => p.first_seen
        | none => some month } : User)) k current

theorem asset_step_preserves_first_seen (current snap : AssetMap) (month k M : String)
    (h : ∃ a, alookup k snap = some a ∧ a.first_seen = some M) :
    ∃ a2, alookup k (parse_asset_list_core current snap month) = some a2 ∧
      a2.first_seen = some M := by
  obtain ⟨a, ha, hfs⟩ := h
  by_cases hcur : k ∈ keysOf current
  · obtain ⟨c, hc⟩ := alookup_isSome_of_mem_keys k current hcur
    have hres : alookup k (resolve_first_seen_assets current snap month) =
        some { c with first_seen := a.first_seen } := by
      rw [alookup_resolve_first_seen_assets, hc, ha]
      rfl
    have hret : alookup k
        (mark_retired_assets (resolve_first_seen_assets current snap month) snap) = none := by
      rw [alookup_mark_retired,
        if_pos (by rw [keysOf_resolve_first_seen_assets]; exact hcur)]
    unfold parse_asset_list_core
    rw [alookup_pyMerge_left _ _ k _ hres, hret]
    exact ⟨{ c with first_seen := a.first_seen }, rfl, by simpa using hfs⟩
  · unfold parse_asset_list_core
    rw [alookup_pyMerge_right _ _ k
      (by rw [keysOf_resolve_first_seen_assets]; exact hcur)]
    rw [alookup_mark_retired,
      if_neg (by rw [keysOf_resolve_first_seen_assets]; exact hcur), ha]
    exact ⟨{ a with status := "retired" }, rfl, by simpa using hfs⟩

theorem asset_chain_preserves_first_seen (steps : List (AssetMap × String))
    (snap : AssetMap) (k M : String)
    (h : ∃ a, alookup k snap = some a ∧ a.first_seen = some M) :
    ∃ a2, alookup k (steps.foldl (fun s p => parse_asset_list_core p.1 s p.2) snap) =
      some a2 ∧ a2.first_seen = some M := by
  induction steps generalizing snap with
  | nil => exact h
  | cons p rest ih => exact ih _ (asset_step_preserves_first_seen p.1 snap p.2 k M h)

theorem user_step_preserves_first_seen (nfkc : String → String) (rows : List URow)
    (month : String) (snap : UserMap) (k M : String)
    (hk : k ∈ keysOf (parse_user_rows nfkc rows month).1)
    (h : ∃ u, alookup k snap = some u ∧ u.first_seen = some M) :
    ∃ u2, alookup k (user_month_step nfkc rows month snap) = some u2 ∧
      u2.first_seen = some M := by
  obtain ⟨u, hu, hfs⟩ := h
  obtain ⟨c, hc⟩ := alookup_isSome_of_mem_keys k _ hk
  unfold user_month_step
  rw [alookup_resolve_first_seen_users, hc, hu]
  exact ⟨{ c with first_seen := u.first_seen }, rfl, by simpa using hfs⟩

theorem user_chain_preserves_first_seen (nfkc : String → String)
    (steps : List (List URow × String)) (snap : UserMap) (k M : String)
    (hpresent : ∀ p ∈ steps, k ∈ keysOf (parse_user_rows nfkc p.1 p.2).1)
    (h : ∃ u, alookup k snap = some u ∧ u.first_seen = some M) :
    ∃ u2, alookup k (steps.foldl (fun s p => user_month_step nfkc p.1 p.2 s) snap) =
      some u2 ∧ u2.first_seen = some M := by
  induction steps generalizing snap with
  | nil => exact h
  | cons p rest ih =>
      apply ih
      · exact fun q hq => hpresent q (List.mem_cons_of_mem p hq)
      · exact user_step_preserves_first_seen nfkc p.1 p.2 snap k M
          (hpresent p (List.mem_cons_self p rest)) h

/-- C7 amended: normalization carries `first_seen` forward unchanged from
the immediately previous snapshot when the identity is present there, and
sets it to the current month otherwise (users and assets).  Consequently an
asset's `first_seen = M` persists through every subsequent monthly
normalization (assets are carried forward as retired when absent), and a
user's `first_seen = M` persists through every subsequent month in which the
user appears in each month's parsed input (users are NOT carried forward:
after a one-month gap, first_seen restarts — see the gap counterexample). -/
theorem first_seen_carry_and_stability :
    (∀ (current previous : UserMap) (month k : String),
      alookup k (resolve_first_seen_users current previous month) =
        (alookup k current).map (fun u =>
          { u with first_seen :=
              match alookup k previous with
              | some p => p.first_seen
              | none => some month })) ∧
    (∀ (current previous : AssetMap) (month k : String),
      alookup k (resolve_first_seen_assets current previous month) =
        (alookup k current).map (fun a =>
          { a with first_seen :=
              match alookup k previous with
              | some p => p.first_seen
              | none => some month })) ∧
    (∀ (steps : List (AssetMap × String)) (snap : AssetMap) (k M : String),
      (∃ a, alookup k snap = some a ∧ a.first_seen = some M) →
      ∃ a2, alookup k (steps.foldl (fun s p => parse_asset_list_core p.1 s p.2) snap) =
        some a2 ∧ a2.first_seen = some M) ∧
    (∀ (nfkc : String → String) (steps : List (List URow × String)) (snap : UserMap)
      (k M : String),
      (∀ p ∈ steps, k ∈ keysOf (parse_user_rows nfkc p.1 p.2).1) →
      (∃ u, alookup k snap = some u ∧ u.first_seen = some M) →
      ∃ u2, alookup k (steps.foldl (fun s p => user_month_step nfkc p.1 p.2 s) snap) =
        some u2 ∧ u2.first_seen = some M) :=
  ⟨alookup_resolve_first_seen_users, alookup_resolve_first_seen_assets,
   asset_chain_preserves_first_seen, user_chain_preserves_first_seen⟩

/-- Witness for the first_seen carry rule at a concrete input: an asset with
`first_seen = 2025-01` keeps it through a month in which it is absent from
the input, and a user present in the next month's input keeps it too. -/
theorem first_seen_carry_and_stability_witness :
    (∃ a, alookup "SN:A" ([("SN:A", mkAsset "WS-01" (some "A"))] : AssetMap) = some a ∧
      a.first_seen = some "2025-01") ∧
    (∃ a2, alookup "SN:A"
        (([(([] : AssetMap), "2025-02")]).foldl
          (fun s p => parse_asset_list_core p.1 s p.2)
          [("SN:A", mkAsset "WS-01" (some "A"))]) = some a2 ∧
      a2.first_seen = some "2025-01") ∧
    (∃ u2, alookup "alice@x.com"
        (([([(⟨"alice@x.com", "Alice", "active", ""⟩ : URow)], "2025-02")]).foldl
          (fun s p => user_month_step id p.1 p.2 s)
          [("alice@x.com", sampleUser false)]) = some u2 ∧
      u2.first_seen = some "2025-01") :=
  ⟨⟨mkAsset "WS-01" (some "A"), by decide, by decide⟩,
   first_seen_carry_and_stability.2.2.1 [([], "2025-02")]
     [("SN:A", mkAsset "WS-01" (some "A"))] "SN:A" "2025-01"
     ⟨mkAsset "WS-01" (some "A"), by decide, by decide⟩,
   first_seen_carry_and_stability.2.2.2 id
     [([⟨"alice@x.com", "Alice", "active", ""⟩], "2025-02")]
     [("alice@x.com", sampleUser false)] "alice@x.com" "2025-01"
     (by
       intro p hp
       rcases List.mem_singleton.mp hp with rfl
       decide)
     ⟨sampleUser false, by decide, by decide⟩⟩

/-- C7 counterexample: a USER whose identity disappears for one month and
reappears does NOT keep first_seen.  alice has `first_seen = 2025-01` in
month 2025-01's snapshot, is absent from 2025-02's input, reappears in
2025-03's input — and the 2025-03 snapshot records `first_seen = 2025-03`,
not `2025-01`, because users (unlike assets) are not carried forward and the
carry reads only the immediately previous snapshot. -/
theorem first_seen_reset_after_gap :
    (∃ u, alookup "alice@x.com" ([("alice@x.com", sampleUser false)] : UserMap) = some u ∧
      u.first_seen = some "2025-01") ∧
    (alookup "alice@x.com"
      (user_month_step id [⟨"alice@x.com", "Alice", "active", ""⟩] "2025-03"
        (user_month_step id [⟨"bob@x.com", "Bob", "active", ""⟩] "2025-02"
          [("alice@x.com", sampleUser false)]))).map (fun u => u.first_seen) =
      some (some "2025-03") ∧
    some (some "2025-03") ≠ some (some ("2025-01" : String)) :=
  ⟨⟨sampleUser false, by decide, by decide⟩, by decide, by decide⟩

-- =====================================================
-- C3: duplicate-identity policy
-- =====================================================

theorem alookup_overwriteMap (m : List (String × α)) (id : String) (v : α) (k : String) :
    alookup k (m.map (fun kv => if kv.1 = id then (id, v) else kv)) =
      if id = k then (alookup k m).map (fun _ => v) else alookup k m := by
  induction m with
  | nil => split <;> rfl
  | cons kv rest ih =>
      simp only [List.map_cons]
      by_cases hid : kv.1 = id
      · rw [if_pos hid, alookup_cons]
        by_cases hk : id = k
        · rw [if_pos hk, if_pos hk, alookup_cons, if_pos (hid.trans hk)]
          rfl
        · rw [if_neg hk, if_neg hk, ih, if_neg hk, alookup_cons,
            if_neg (fun h => hk (hid ▸ h))]
  -- the branch below: head key differs from id
      · rw [if_neg hid, alookup_cons]
        by_cases hk : kv.1 = k
        · rw [if_pos hk]
          by_cases hik : id = k
          · rw [if_pos hik, alookup_cons, if_pos hk]
            exact absurd (hik ▸ hk : kv.1 = id) hid
          · rw [if_neg hik, alookup_cons, if_pos hk]
        · rw [if_neg hk, ih, alookup_cons, if_neg hk]

theorem alookup_insertOverwrite (m : List (String × α)) (id : String) (v : α) (k : String)
    (hm : id ∈ keysOf m) :
    alookup k (insertOverwrite m id v) = if id = k then some v else alookup k m := by
  unfold insertOverwrite
  rw [if_pos hm, alookup_overwriteMap]
  by_cases hk : id = k
  · rw [if_pos hk, if_pos hk]
    obtain ⟨w, hw⟩ := alookup_isSome_of_mem_keys id m hm
    rw [← hk, hw]
    rfl
  · rw [if_neg hk, if_neg hk]

theorem alookup_insertOverwrite_new (m : List (String × α)) (id : String) (v : α) (k : String)
    (hm : id ∉ keysOf m) :
    alookup k (insertOverwrite m id v) = if id = k then some v else alookup k m := by
  unfold insertOverwrite
  rw [if_neg hm, alookup_append]
  cases ha : alookup k m with
  | some w =>
      have : id ≠ k := fun h => hm (h ▸ mem_keys_of_alookup_eq_some k m w ha)
      rw [if_neg this]
      rfl
  | none =>
      show alookup k [(id, v)] = _
      rw [alookup_cons]
      split <;> rfl

theorem alookup_insertOverwrite_all (m : List (String × α)) (id : String) (v : α)
    (k : String) :
    alookup k (insertOverwrite m id v) = if id = k then some v else alookup k m := by
  by_cases hm : id ∈ keysOf m
  · exact alookup_insertOverwrite m id v k hm
  · exact alookup_insertOverwrite_new m id v k hm

theorem asset_parse_step_eq (month : String) (m : AssetMap) (r : ARow) :
    asset_parse_step month m r =
      match asset_row_key r with
      | none => m
      | some id => insertOverwrite m id (build_asset r month) := by
  unfold asset_parse_step asset_row_key
  by_cases h : normalize_device_name r.device_raw = "" ∧ normalize_serial r.serial_raw = ""
  · simp [h]
  · simp [h]

theorem alookup_parse_asset_rows_aux (month : String) (rows : List ARow) (m : AssetMap)
    (k : String) :
    alookup k (rows.foldl (asset_parse_step month) m) =
      match (rows.reverse).find? (fun r => asset_row_key r == some k) with
      | some r => some (build_asset r month)
      | none => alookup k m := by
  induction rows generalizing m with
  | nil => rfl
  | cons r rest ih =>
      show alookup k (rest.foldl (asset_parse_step month) (asset_parse_step month m r)) = _
      rw [ih, List.reverse_cons, List.find?_append]
      cases hf : (rest.reverse).find? (fun r => asset_row_key r == some k) with
      | some r' => rfl
      | none =>
          show alookup k (asset_parse_step month m r) =
            match List.find? (fun r => asset_row_key r == some k) [r] with
            | some r => some (build_asset r month)
            | none => alookup k m
          rw [asset_parse_step_eq]
          cases hk2 : asset_row_key r with
          | none =>
              simp only [List.find?_cons, List.find?_nil, hk2]
              rfl
          | some id =>
              simp only [List.find?_cons, List.find?_nil, hk2]
              by_cases hid : id = k
              · subst hid
                rw [alookup_insertOverwrite_all, if_pos rfl]
                simp
              · rw [alookup_insertOverwrite_all, if_neg hid]
                have : ((some id == some k) : Bool) = false := by
                  simp [beq_iff_eq, hid]
                rw [this]

theorem user_parse_step_fst (nfkc : String → String) (month : String)
    (st : UserMap × List String) (r : URow) :
    (user_parse_step nfkc month st r).1 =
      (if normalize_email nfkc (pyStrip r.email_raw) = "" then st.1
       else if normalize_email nfkc (pyStrip r.email_raw) ∈ keysOf st.1 then st.1
       else st.1 ++ [(normalize_email nfkc (pyStrip r.email_raw),
         build_user (normalize_email nfkc (pyStrip r.email_raw))
           r.name_val r.status_raw r.products_raw month)]) := by
  unfold user_parse_step
  by_cases h1 : normalize_email nfkc (pyStrip r.email_raw) = ""
  · simp [h1]
  · by_cases h2 : normalize_email nfkc (pyStrip r.email_raw) ∈ keysOf st.1
    · simp [h1, h2]
    · simp [h1, h2]

theorem alookup_parse_user_rows_aux (nfkc : String → String) (month : String)
    (rows : List URow) (st : UserMap × List String) (k : String) (hk : ¬ k = "") :
    alookup k (rows.foldl (user_parse_step nfkc month) st).1 =
      (match alookup k st.1 with
       | some v => some v
       | none =>
           (rows.find? (fun r => normalize_email nfkc (pyStrip r.email_raw) == k)).map
             (fun r => build_user k r.name_val r.status_raw r.products_raw month)) := by
  induction rows generalizing st with
  | nil =>
      cases h : alookup k st.1 <;> simp [h]
  | cons r rest ih =>
      show alookup k (rest.foldl (user_parse_step nfkc month) (user_parse_step nfkc month st r)).1 = _
      rw [ih, List.find?_cons]
      by_cases h1 : normalize_email nfkc (pyStrip r.email_raw) = ""
      · have hpred : ((normalize_email nfkc (pyStrip r.email_raw) == k) : Bool) = false := by
          simp [beq_iff_eq, h1]
          exact fun h => absurd h.symm hk
        rw [hpred]
        have hstep : (user_parse_step nfkc month st r).1 = st.1 := by
          rw [user_parse_step_fst, if_pos h1]
        rw [hstep]
      · by_cases h2 : normalize_email nfkc (pyStrip r.email_raw) = k
        · -- this row resolves to k
          have hpred : ((normalize_email nfkc (pyStrip r.email_raw) == k) : Bool) = true := by
            simp [beq_iff_eq, h2]
          rw [hpred]
          by_cases h3 : normalize_email nfkc (pyStrip r.email_raw) ∈ keysOf st.1
          · have hstep : (user_parse_step nfkc month st r).1 = st.1 := by
              rw [user_parse_step_fst, if_neg h1, if_pos h3]
            rw [hstep]
            obtain ⟨v, hv⟩ := alookup_isSome_of_mem_keys k st.1 (h2 ▸ h3)
            rw [hv]
          · have hstep : (user_parse_step nfkc month st r).1 =
                st.1 ++ [(normalize_email nfkc (pyStrip r.email_raw),
                  build_user (normalize_email nfkc (pyStrip r.email_raw))
                    r.name_val r.status_raw r.products_raw month)] := by
              rw [user_parse_step_fst, if_neg h1, if_neg h3]
            have hnone : alookup k st.1 = none :=
              (alookup_eq_none_iff k st.1).mpr (h2 ▸ h3)
            have htail : alookup k [(normalize_email nfkc (pyStrip r.email_raw),
                build_user (normalize_email nfkc (pyStrip r.email_raw))
                  r.name_val r.status_raw r.products_raw month)] =
                some (build_user k r.name_val r.status_raw r.products_raw month) := by
              rw [alookup_cons, if_pos h2, h2]
            rw [hstep, alookup_append, hnone, htail]
            rfl
        · -- this row resolves to a different key
          have hpred : ((normalize_email nfkc (pyStrip r.email_raw) == k) : Bool) = false := by
            simp [beq_iff_eq, h2]
          rw [hpred]
          by_cases h3 : normalize_email nfkc (pyStrip r.email_raw) ∈ keysOf st.1
          · have hstep : (user_parse_step nfkc month st r).1 = st.1 := by
              rw [user_parse_step_fst, if_neg h1, if_pos h3]
            rw [hstep]
          · have hstep : (user_parse_step nfkc month st r).1 =
                st.1 ++ [(normalize_email nfkc (pyStrip r.email_raw),
                  build_user (normalize_email nfkc (pyStrip r.email_raw))
                    r.name_val r.status_raw r.products_raw month)] := by
              rw [user_parse_step_fst, if_neg h1, if_neg h3]
            have htail : alookup k [(normalize_email nfkc (pyStrip r.email_raw),
                build_user (normalize_email nfkc (pyStrip r.email_raw))
                  r.name_val r.status_raw r.products_raw month)] =
                (none : Option User) := by
              rw [alookup_cons, if_neg h2]
              rfl
            rw [hstep, alookup_append, htail]
            cases hv : alookup k st.1 with
            | some v => rfl
            | none => rfl

theorem mem_insertSet_self (l : List String) (k : String) : k ∈ insertSet l k := by
  unfold insertSet
  split
  · assumption
  · simp

theorem mem_insertSet_of_mem (l : List String) (e k : String) (h : k ∈ l) :
    k ∈ insertSet l e := by
  unfold insertSet
  split
  · exact h
  · simp [h]

theorem user_parse_step_snd (nfkc : String → String) (month : String)
    (st : UserMap × List String) (r : URow) :
    (user_parse_step nfkc month st r).2 =
      (if normalize_email nfkc (pyStrip r.email_raw) = "" then st.2
       else if normalize_email nfkc (pyStrip r.email_raw) ∈ keysOf st.1 then
         insertSet st.2 (normalize_email nfkc (pyStrip r.email_raw))
       else st.2) := by
  unfold user_parse_step
  by_cases h1 : normalize_email nfkc (pyStrip r.email_raw) = ""
  · simp [h1]
  · by_cases h2 : normalize_email nfkc (pyStrip r.email_raw) ∈ keysOf st.1
    · simp [h1, h2]
    · simp [h1, h2]

theorem user_dup_aux (nfkc : String → String) (month : String) (rows : List URow)
    (st : UserMap × List String) (k : String) (hk : ¬ k = "")
    (h : k ∈ st.2 ∨
      (k ∈ keysOf st.1 ∧
        1 ≤ rows.countP (fun r => normalize_email nfkc (pyStrip r.email_raw) == k)) ∨
      2 ≤ rows.countP (fun r => normalize_email nfkc (pyStrip r.email_raw) == k)) :
    k ∈ (rows.foldl (user_parse_step nfkc month) st).2 := by
  induction rows generalizing st with
  | nil =>
      rcases h with h | ⟨_, h⟩ | h
      · exact h
      · simp [List.countP_nil] at h
      · simp [List.countP_nil] at h
  | cons r rest ih =>
      show k ∈ (rest.foldl (user_parse_step nfkc month) (user_parse_step nfkc month st r)).2
      have hcnt : (r :: rest).countP (fun r => normalize_email nfkc (pyStrip r.email_raw) == k) =
          rest.countP (fun r => normalize_email nfkc (pyStrip r.email_raw) == k) +
            (if (normalize_email nfkc (pyStrip r.email_raw) == k) = true then 1 else 0) := by
        rw [List.countP_cons]
      have hmono1 : k ∈ st.2 → k ∈ (user_parse_step nfkc month st r).2 := by
        intro hin
        rw [user_parse_step_snd]
        split
        · exact hin
        · split
          · exact mem_insertSet_of_mem _ _ _ hin
          · exact hin
      have hmonokeys : k ∈ keysOf st.1 → k ∈ keysOf (user_parse_step nfkc month st r).1 := by
        intro hin
        rw [user_parse_step_fst]
        split
        · exact hin
        · split
          · exact hin
          · rw [keysOf_append]
            exact List.mem_append_left _ hin
      apply ih
      by_cases hpred : (normalize_email nfkc (pyStrip r.email_raw) == k) = true
      · -- this row resolves to k
        have he : normalize_email nfkc (pyStrip r.email_raw) = k := by
          simpa [beq_iff_eq] using hpred
        have hne : ¬ normalize_email nfkc (pyStrip r.email_raw) = "" := by
          rw [he]; exact hk
        rcases h with hin | ⟨hkeys, _⟩ | h2
        · exact Or.inl (hmono1 hin)
        · -- k already a key, and this row hits the duplicate branch
          left
          rw [user_parse_step_snd, if_neg hne, if_pos (he ▸ hkeys)]
          rw [he]
          exact mem_insertSet_self st.2 k
        · by_cases hkeys : normalize_email nfkc (pyStrip r.email_raw) ∈ keysOf st.1
          · left
            rw [user_parse_step_snd, if_neg hne, if_pos hkeys, he]
            exact mem_insertSet_self st.2 k
          · right; left
            constructor
            · rw [user_parse_step_fst, if_neg hne, if_neg hkeys, keysOf_append]
              apply List.mem_append_right
              rw [he]
              simp [keysOf]
            · rw [hcnt, if_pos hpred] at h2
              omega
      · -- this row resolves to some other key
        rcases h with hin | ⟨hkeys, h1⟩ | h2
        · exact Or.inl (hmono1 hin)
        · right; left
          refine ⟨hmonokeys hkeys, ?_⟩
          rw [hcnt, if_neg hpred] at h1
          omega
        · right; right
          rw [hcnt, if_neg hpred] at h2
          omega

/-- C3 counterexample: in the ASSET parser a duplicate identity key does NOT
keep the first occurrence — the dict assignment overwrites it, so the second
row's field values (model "M2") appear in the snapshot and the first row's
(model "M1") are lost. -/
theorem asset_duplicate_overwrites :
    alookup "SN:ABC" (parse_asset_rows
      [⟨"ws-01", "abc", "", "M1", "W10"⟩, ⟨"ws-01", "abc", "", "M2", "W11"⟩] "2025-01") =
      some (build_asset ⟨"ws-01", "abc", "", "M2", "W11"⟩ "2025-01") ∧
    (build_asset (⟨"ws-01", "abc", "", "M2", "W11"⟩ : ARow) "2025-01").model = "M2" ∧
    (build_asset (⟨"ws-01", "abc", "", "M1", "W10"⟩ : ARow) "2025-01").model = "M1" ∧
    ("M2" : String) ≠ "M1" :=
  ⟨by decide, by decide, by decide, by decide⟩

/-- C3 amended: the two parsers disagree on duplicate identities.  The USER
parser skips second and later occurrences (the first occurrence's values win)
and records the duplicate key in its warning set; the ASSET parser warns but
OVERWRITES, so the LAST occurrence's values win.  Formally: a user key looks
up to the user built from the FIRST matching row; a key occurring twice or
more among the valid user rows is recorded in the duplicates set; an asset
key looks up to the asset built from the LAST matching row. -/
theorem duplicate_identity_policy :
    (∀ (nfkc : String → String) (rows : List URow) (month k : String), ¬ k = "" →
      alookup k (parse_user_rows nfkc rows month).1 =
        (rows.find? (fun r => normalize_email nfkc (pyStrip r.email_raw) == k)).map
          (fun r => build_user k r.name_val r.status_raw r.products_raw month)) ∧
    (∀ (nfkc : String → String) (rows : List URow) (month k : String), ¬ k = "" →
      2 ≤ rows.countP (fun r => normalize_email nfkc (pyStrip r.email_raw) == k) →
      k ∈ (parse_user_rows nfkc rows month).2) ∧
    (∀ (rows : List ARow) (month k : String),
      alookup k (parse_asset_rows rows month) =
        match (rows.reverse).find? (fun r => asset_row_key r == some k) with
        | some r => some (build_asset r month)
        | none => none) := by
  refine ⟨?_, ?_, ?_⟩
  · intro nfkc rows month k hk
    exact alookup_parse_user_rows_aux nfkc month rows ([], []) k hk
  · intro nfkc rows month k hk h2
    exact user_dup_aux nfkc month rows ([], []) k hk (Or.inr (Or.inr h2))
  · intro rows month k
    rw [show parse_asset_rows rows month = rows.foldl (asset_parse_step month) [] from rfl,
      alookup_parse_asset_rows_aux]
    cases (rows.reverse).find? (fun r => asset_row_key r == some k) <;> rfl

/-- Witness for the duplicate-identity policy at a concrete input: two user
rows with the same email — the first one's name wins and the key is recorded
as a duplicate. -/
theorem duplicate_identity_policy_witness :
    (¬ ("alice@x.com" : String) = "") ∧
    alookup "alice@x.com" (parse_user_rows id
      [⟨"alice@x.com", "Alice One", "active", ""⟩, ⟨"alice@x.com", "Alice Two", "active", ""⟩]
      "2025-01").1 =
      some (build_user "alice@x.com" "Alice One" "active" "" "2025-01") ∧
    "alice@x.com" ∈ (parse_user_rows id
      [⟨"alice@x.com", "Alice One", "active", ""⟩, ⟨"alice@x.com", "Alice Two", "active", ""⟩]
      "2025-01").2 := by
  refine ⟨by decide, ?_, ?_⟩
  · have h := duplicate_identity_policy.1 id
      [⟨"alice@x.com", "Alice One", "active", ""⟩, ⟨"alice@x.com", "Alice Two", "active", ""⟩]
      "2025-01" "alice@x.com" (by decide)
    exact h.trans (by decide)
  · exact duplicate_identity_policy.2.1 id
      [⟨"alice@x.com", "Alice One", "active", ""⟩, ⟨"alice@x.com", "Alice Two", "active", ""⟩]
      "2025-01" "alice@x.com" (by decide) (by decide)

-- =====================================================
-- Backup enrichment characterization (for C5, C8, C10)
-- =====================================================

theorem setBackup_setBackup (a : Asset) (s1 s2 : BackupState) :
    setBackup (setBackup a s1) s2 = setBackup a s2 := rfl

theorem applyToIds_eq_map (m : AssetMap) (ids : List String) (st : BackupState) :
    applyToIds m ids st =
      m.map (fun kv => if kv.1 ∈ ids then (kv.1, setBackup kv.2 st) else kv) := by
  induction ids generalizing m with
  | nil =>
      show m = m.map fun kv => if kv.1 ∈ ([] : List String) then (kv.1, setBackup kv.2 st) else kv
      rw [List.map_congr_left (fun kv _ => by rw [if_neg (List.not_mem_nil kv.1)])]
      exact (List.map_id m).symm
  | cons i ids ih =>
      show applyToIds (updateAsset m i st) ids st = _
      rw [ih]
      unfold updateAsset
      rw [List.map_map]
      apply List.map_congr_left
      intro kv _
      show (if (if kv.1 = i then (kv.1, setBackup kv.2 st) else kv).1 ∈ ids then
          ((if kv.1 = i then (kv.1, setBackup kv.2 st) else kv).1,
            setBackup (if kv.1 = i then (kv.1, setBackup kv.2 st) else kv).2 st)
        else (if kv.1 = i then (kv.1, setBackup kv.2 st) else kv)) =
        if kv.1 ∈ i :: ids then (kv.1, setBackup kv.2 st) else kv
      by_cases hi : kv.1 = i
      · rw [if_pos hi]
        by_cases hm : kv.1 ∈ ids
        · rw [if_pos hm, if_pos (List.mem_cons_of_mem i hm)]
          rfl
        · rw [if_neg hm, if_pos (by rw [hi]; exact List.mem_cons_self i ids)]
      · rw [if_neg hi]
        by_cases hm : kv.1 ∈ ids
        · rw [if_pos hm, if_pos (List.mem_cons_of_mem i hm)]
        · rw [if_neg hm, if_neg (by simp [List.mem_cons, hi, hm])]

theorem enrich_eq_map (m : AssetMap) (idx : List (String × List String))
    (bd : List (String × BackupDev)) :
    enrich_assets_with_backup m idx bd =
      m.map (fun kv => (kv.1, applyAssign bd idx kv.1 kv.2)) := by
  induction idx generalizing m with
  | nil =>
      show m = _
      rw [List.map_congr_left (fun kv _ => by
        show kv = (kv.1, applyAssign bd [] kv.1 kv.2)
        rfl)]
      exact (List.map_id m).symm
  | cons p rest ih =>
      show enrich_assets_with_backup
        (applyToIds m p.2 (applyBackup (alookup p.1 bd))) rest bd = _
      rw [ih, applyToIds_eq_map, List.map_map]
      apply List.map_congr_left
      intro kv _
      show (fun kv => (kv.1, applyAssign bd rest kv.1 kv.2))
          (if kv.1 ∈ p.2 then (kv.1, setBackup kv.2 (applyBackup (alookup p.1 bd))) else kv) =
        (kv.1, applyAssign bd (p :: rest) kv.1 kv.2)
      have hA : assignFor bd kv.1 (p :: rest) =
          (match assignFor bd kv.1 rest with
           | some st => some st
           | none => if kv.1 ∈ p.2 then some (applyBackup (alookup p.1 bd)) else none) := rfl
      have hcons : applyAssign bd (p :: rest) kv.1 kv.2 =
          (match assignFor bd kv.1 rest with
           | some st => setBackup kv.2 st
           | none =>
               if kv.1 ∈ p.2 then setBackup kv.2 (applyBackup (alookup p.1 bd)) else kv.2) := by
        unfold applyAssign
        rw [hA]
        cases hres0 : assignFor bd kv.1 rest with
        | some st => rfl
        | none =>
            by_cases hp : kv.1 ∈ p.2
            · rw [if_pos hp, if_pos hp]
            · rw [if_neg hp, if_neg hp]
      rw [hcons]
      cases hres : assignFor bd kv.1 rest with
      | some st =>
          by_cases hp : kv.1 ∈ p.2
          · rw [if_pos hp]
            show (kv.1, applyAssign bd rest kv.1 (setBackup kv.2 (applyBackup (alookup p.1 bd)))) = _
            unfold applyAssign
            rw [hres]
            rfl
          · rw [if_neg hp]
            show (kv.1, applyAssign bd rest kv.1 kv.2) = _
            unfold applyAssign
            rw [hres]
      | none =>
          by_cases hp : kv.1 ∈ p.2
          · rw [if_pos hp, if_pos hp]
            show (kv.1, applyAssign bd rest kv.1 (setBackup kv.2 (applyBackup (alookup p.1 bd)))) = _
            unfold applyAssign
            rw [hres]
          · rw [if_neg hp, if_neg hp]
            show (kv.1, applyAssign bd rest kv.1 kv.2) = _
            unfold applyAssign
            rw [hres]

theorem applyAssign_device_name (bd : List (String × BackupDev))
    (idx : List (String × List String)) (k : String) (v : Asset) :
    (applyAssign bd idx k v).device_name = v.device_name := by
  unfold applyAssign
  cases assignFor bd k idx <;> rfl

theorem applyAssign_idem (bd : List (String × BackupDev))
    (idx : List (String × List String)) (k : String) (v : Asset) :
    applyAssign bd idx k (applyAssign bd idx k v) = applyAssign bd idx k v := by
  unfold applyAssign
  cases h : assignFor bd k idx
  · rfl
  · rfl

theorem build_device_index_map_congr (m : AssetMap) (f : String × Asset → String × Asset)
    (hf1 : ∀ kv, (f kv).1 = kv.1) (hf2 : ∀ kv, (f kv).2.device_name = kv.2.device_name) :
    build_device_index (m.map f) = build_device_index m := by
  unfold build_device_index
  suffices h : ∀ acc : List (String × List String),
      (m.map f).foldl (fun idx kv =>
        if normalize_device kv.2.device_name = "" then idx
        else setdefaultAppend idx (normalize_device kv.2.device_name) kv.1) acc =
      m.foldl (fun idx kv =>
        if normalize_device kv.2.device_name = "" then idx
        else setdefaultAppend idx (normalize_device kv.2.device_name) kv.1) acc by
    exact h []
  intro acc
  induction m generalizing acc with
  | nil => rfl
  | cons kv rest ih =>
      simp only [List.map_cons, List.foldl_cons]
      rw [show (if normalize_device (f kv).2.device_name = "" then acc
          else setdefaultAppend acc (normalize_device (f kv).2.device_name) (f kv).1) =
          (if normalize_device kv.2.device_name = "" then acc
          else setdefaultAppend acc (normalize_device kv.2.device_name) kv.1) by
        rw [hf1, hf2]]
      exact ih _

theorem run_backup_pass_keys (m : AssetMap) (bd : List (String × BackupDev)) :
    keysOf (run_backup_pass m bd) = keysOf m := by
  unfold run_backup_pass
  rw [enrich_eq_map]
  exact keysOf_map_entry (fun k v => applyAssign bd (build_device_index m) k v) m

theorem run_backup_pass_idem (m : AssetMap) (bd : List (String × BackupDev)) :
    run_backup_pass (run_backup_pass m bd) bd = run_backup_pass m bd := by
  have hidx : build_device_index (run_backup_pass m bd) = build_device_index m := by
    unfold run_backup_pass
    rw [enrich_eq_map]
    exact build_device_index_map_congr m
      (fun kv => (kv.1, applyAssign bd (build_device_index m) kv.1 kv.2))
      (fun kv => rfl)
      (fun kv => applyAssign_device_name bd (build_device_index m) kv.1 kv.2)
  show enrich_assets_with_backup (run_backup_pass m bd)
      (build_device_index (run_backup_pass m bd)) bd = run_backup_pass m bd
  rw [hidx]
  unfold run_backup_pass
  rw [enrich_eq_map m (build_device_index m) bd, enrich_eq_map, List.map_map]
  apply List.map_congr_left
  intro kv _
  show (kv.1, applyAssign bd (build_device_index m) kv.1
      (applyAssign bd (build_device_index m) kv.1 kv.2)) =
    (kv.1, applyAssign bd (build_device_index m) kv.1 kv.2)
  rw [applyAssign_idem]

theorem phishing_update_idem (pd : List (String × PhishRec)) (k : String) (u : User) :
    phishing_update pd k (phishing_update pd k u) = phishing_update pd k u := by
  unfold phishing_update
  cases h : alookup k pd
  · rfl
  · rfl

theorem edr_update_idem (ed : List (String × EdrRec)) (a : Asset) :
    edr_update ed (edr_update ed a) = edr_update ed a := by
  unfold edr_update
  by_cases hs : normalize_serial (a.serial_number.getD "") = ""
  · simp only [hs, if_true, if_pos hs]
  · cases h : alookup (normalize_serial (a.serial_number.getD "")) ed
    · simp only [if_neg hs, h]
    · simp only [if_neg hs, h]

theorem darkweb_update_idem (dd : List (String × DarkRec)) (k : String) (u : User) :
    darkweb_update dd k (darkweb_update dd k u) = darkweb_update dd k u := by
  unfold darkweb_update
  cases h : alookup k dd
  · rfl
  · rfl

-- =====================================================
-- C8: enrichment idempotence
-- =====================================================

/-- C8: every enrichment merger is idempotent — running the same merger
twice on a snapshot with the same report yields the same snapshot as running
it once — and no merger creates or removes entities (the key sequence is
preserved).  Proved for all four mergers: backup (including the rebuilt
device-name index of the second run), phishing, EDR, and dark-web. -/
theorem enrichment_mergers_idempotent :
    (∀ (m : AssetMap) (bd : List (String × BackupDev)),
      run_backup_pass (run_backup_pass m bd) bd = run_backup_pass m bd ∧
      keysOf (run_backup_pass m bd) = keysOf m) ∧
    (∀ (u : UserMap) (pd : List (String × PhishRec)),
      enrich_users_with_phishing (enrich_users_with_phishing u pd) pd =
        enrich_users_with_phishing u pd ∧
      keysOf (enrich_users_with_phishing u pd) = keysOf u) ∧
    (∀ (a : AssetMap) (ed : List (String × EdrRec)),
      enrich_assets_with_edr (enrich_assets_with_edr a ed) ed =
        enrich_assets_with_edr a ed ∧
      keysOf (enrich_assets_with_edr a ed) = keysOf a) ∧
    (∀ (u : UserMap) (dd : List (String × DarkRec)),
      enrich_users_with_darkweb (enrich_users_with_darkweb u dd) dd =
        enrich_users_with_darkweb u dd ∧
      keysOf (enrich_users_with_darkweb u dd) = keysOf u) := by
  refine ⟨fun m bd => ⟨run_backup_pass_idem m bd, run_backup_pass_keys m bd⟩,
    fun u pd => ⟨?_, ?_⟩, fun a ed => ⟨?_, ?_⟩, fun u dd => ⟨?_, ?_⟩⟩
  · unfold enrich_users_with_phishing
    rw [List.map_map]
    apply List.map_congr_left
    intro kv _
    show (kv.1, phishing_update pd kv.1 (phishing_update pd kv.1 kv.2)) =
      (kv.1, phishing_update pd kv.1 kv.2)
    rw [phishing_update_idem]
  · unfold enrich_users_with_phishing
    exact keysOf_map_entry (fun k v => phishing_update pd k v) u
  · unfold enrich_assets_with_edr
    rw [List.map_map]
    apply List.map_congr_left
    intro kv _
    show (kv.1, edr_update ed (edr_update ed kv.2)) = (kv.1, edr_update ed kv.2)
    rw [edr_update_idem]
  · unfold enrich_assets_with_edr
    exact keysOf_map_entry (fun k v => edr_update ed v) a
  · unfold enrich_users_with_darkweb
    rw [List.map_map]
    apply List.map_congr_left
    intro kv _
    show (kv.1, darkweb_update dd kv.1 (darkweb_update dd kv.1 kv.2)) =
      (kv.1, darkweb_update dd kv.1 kv.2)
    rw [darkweb_update_idem]
  · unfold enrich_users_with_darkweb
    exact keysOf_map_entry (fun k v => darkweb_update dd k v) u

-- =====================================================
-- Device-index characterization (for C5, C10)
-- =====================================================

theorem alookup_some_mem (k : String) (m : List (String × α)) (v : α)
    (h : alookup k m = some v) : (k, v) ∈ m := by
  induction m with
  | nil => cases h
  | cons kv rest ih =>
      rw [alookup_cons] at h
      by_cases hk : kv.1 = k
      · rw [if_pos hk] at h
        cases h
        have heq : (k, kv.2) = kv := by rw [← hk]
        rw [heq]
        exact List.mem_cons_self kv rest
      · rw [if_neg hk] at h
        exact List.mem_cons_of_mem kv (ih h)

theorem keys_nodup_value_unique (m : List (String × α)) (k : String) (v v' : α)
    (hnd : (keysOf m).Nodup) (h1 : (k, v) ∈ m) (h2 : (k, v') ∈ m) : v = v' := by
  induction m with
  | nil => cases h1
  | cons kv rest ih =>
      have hnd2 : (keysOf rest).Nodup := (List.nodup_cons.mp hnd).2
      have hhead : kv.1 ∉ keysOf rest := (List.nodup_cons.mp hnd).1
      rcases List.mem_cons.mp h1 with e1 | m1
      · rcases List.mem_cons.mp h2 with e2 | m2
        · exact congrArg Prod.snd (e1.trans e2.symm)
        · exfalso
          apply hhead
          rw [(congrArg Prod.fst e1).symm]
          show k ∈ keysOf rest
          exact List.mem_map_of_mem Prod.fst m2
      · rcases List.mem_cons.mp h2 with e2 | m2
        · exfalso
          apply hhead
          rw [(congrArg Prod.fst e2).symm]
          show k ∈ keysOf rest
          exact List.mem_map_of_mem Prod.fst m1
        · exact ih hnd2 m1 m2

theorem assignFor_eq_none_iff (bd : List (String × BackupDev)) (k : String)
    (idx : List (String × List String)) :
    assignFor bd k idx = none ↔ ∀ p ∈ idx, k ∉ p.2 := by
  induction idx with
  | nil => simp [assignFor]
  | cons p rest ih =>
      have hA : assignFor bd k (p :: rest) =
          (match assignFor bd k rest with
           | some st => some st
           | none => if k ∈ p.2 then some (applyBackup (alookup p.1 bd)) else none) := rfl
      rw [hA]
      cases hr : assignFor bd k rest with
      | some st =>
          simp only []
          constructor
          · intro h; cases h
          · intro h
            exfalso
            have := ih.mpr (fun q hq => h q (List.mem_cons_of_mem p hq))
            rw [this] at hr
            cases hr
      | none =>
          simp only []
          by_cases hp : k ∈ p.2
          · rw [if_pos hp]
            constructor
            · intro h; cases h
            · intro h; exact absurd hp (h p (List.mem_cons_self p rest))
          · rw [if_neg hp]
            constructor
            · intro _ q hq
              rcases List.mem_cons.mp hq with rfl | hq2
              · exact hp
              · exact (ih.mp hr) q hq2
            · intro _; rfl

theorem assignFor_of_unique (bd : List (String × BackupDev)) (k n : String)
    (idx : List (String × List String))
    (honly : ∀ p ∈ idx, k ∈ p.2 → p.1 = n)
    (hex : ∃ p ∈ idx, k ∈ p.2) :
    assignFor bd k idx = some (applyBackup (alookup n bd)) := by
  induction idx with
  | nil => rcases hex with ⟨p, hp, _⟩; cases hp
  | cons p rest ih =>
      have hA : assignFor bd k (p :: rest) =
          (match assignFor bd k rest with
           | some st => some st
           | none => if k ∈ p.2 then some (applyBackup (alookup p.1 bd)) else none) := rfl
      rw [hA]
      cases hr : assignFor bd k rest with
      | some st =>
          have hexr : ∃ q ∈ rest, k ∈ q.2 := by
            by_contra hno
            push_neg at hno
            rw [(assignFor_eq_none_iff bd k rest).mpr hno] at hr
            cases hr
          have := ih (fun q hq hkq => honly q (List.mem_cons_of_mem p hq) hkq) hexr
          rw [this] at hr
          rw [← hr]
      | none =>
          have hkp : k ∈ p.2 := by
            rcases hex with ⟨q, hq, hkq⟩
            rcases List.mem_cons.mp hq with rfl | hq2
            · exact hkq
            · exfalso
              have := (assignFor_eq_none_iff bd k rest).mp hr
              exact this q hq2 hkq
          rw [if_pos hkp, honly p (List.mem_cons_self p rest) hkp]

theorem setdefaultAppend_group_prop (P : String → Prop) (k : String)
    (idx : List (String × List String)) (n id : String)
    (h1 : ∀ p ∈ idx, k ∈ p.2 → P p.1)
    (h2 : k = id → P n) :
    ∀ p ∈ setdefaultAppend idx n id, k ∈ p.2 → P p.1 := by
  induction idx with
  | nil =>
      intro p hp hk
      rcases List.mem_singleton.mp hp with rfl
      have hkid : k = id := List.mem_singleton.mp hk
      exact h2 hkid
  | cons q rest ih =>
      have hE : setdefaultAppend (q :: rest) n id =
          (if q.1 = n then (q.1, q.2 ++ [id]) :: rest
           else q :: setdefaultAppend rest n id) := rfl
      intro p hp hk
      rw [hE] at hp
      by_cases hq : q.1 = n
      · rw [if_pos hq] at hp
        rcases List.mem_cons.mp hp with rfl | hp2
        · rcases List.mem_append.mp hk with hk1 | hk2
          · exact h1 q (List.mem_cons_self q rest) hk1
          · have hkid : k = id := List.mem_singleton.mp hk2
            show P q.1
            rw [hq]
            exact h2 hkid
        · exact h1 p (List.mem_cons_of_mem q hp2) hk
      · rw [if_neg hq] at hp
        rcases List.mem_cons.mp hp with heq | hp2
        · rw [heq]
          exact h1 q (List.mem_cons_self q rest) (heq ▸ hk)
        · exact ih (fun r hr hkr => h1 r (List.mem_cons_of_mem q hr) hkr) p hp2 hk

theorem setdefaultAppend_mem_preserved (idx : List (String × List String))
    (n id k : String) (h : ∃ p ∈ idx, k ∈ p.2) :
    ∃ p ∈ setdefaultAppend idx n id, k ∈ p.2 := by
  induction idx with
  | nil => rcases h with ⟨p, hp, _⟩; cases hp
  | cons q rest ih =>
      have hE : setdefaultAppend (q :: rest) n id =
          (if q.1 = n then (q.1, q.2 ++ [id]) :: rest
           else q :: setdefaultAppend rest n id) := rfl
      rw [hE]
      obtain ⟨p, hp, hk⟩ := h
      by_cases hq : q.1 = n
      · rw [if_pos hq]
        rcases List.mem_cons.mp hp with rfl | hp2
        · exact ⟨(p.1, p.2 ++ [id]), List.mem_cons_self _ _, List.mem_append_left _ hk⟩
        · exact ⟨p, List.mem_cons_of_mem _ hp2, hk⟩
      · rw [if_neg hq]
        rcases List.mem_cons.mp hp with rfl | hp2
        · exact ⟨p, List.mem_cons_self _ _, hk⟩
        · obtain ⟨r, hr, hkr⟩ := ih ⟨p, hp2, hk⟩
          exact ⟨r, List.mem_cons_of_mem _ hr, hkr⟩

theorem setdefaultAppend_mem_self (idx : List (String × List String)) (n id : String) :
    ∃ p ∈ setdefaultAppend idx n id, id ∈ p.2 := by
  induction idx with
  | nil => exact ⟨(n, [id]), List.mem_singleton_self _, List.mem_singleton_self _⟩
  | cons q rest ih =>
      have hE : setdefaultAppend (q :: rest) n id =
          (if q.1 = n then (q.1, q.2 ++ [id]) :: rest
           else q :: setdefaultAppend rest n id) := rfl
      rw [hE]
      by_cases hq : q.1 = n
      · rw [if_pos hq]
        exact ⟨(q.1, q.2 ++ [id]), List.mem_cons_self _ _,
          List.mem_append_right _ (List.mem_singleton_self _)⟩
      · rw [if_neg hq]
        obtain ⟨r, hr, hkr⟩ := ih
        exact ⟨r, List.mem_cons_of_mem _ hr, hkr⟩

theorem bdi_aux1 (k : String) (P : String → Prop) (rows : List (String × Asset)) :
    ∀ (acc : List (String × List String)),
    (∀ p ∈ acc, k ∈ p.2 → P p.1) →
    (∀ kv ∈ rows, kv.1 = k → ¬ normalize_device kv.2.device_name = "" →
      P (normalize_device kv.2.device_name)) →
    ∀ p ∈ rows.foldl (fun idx kv =>
      if normalize_device kv.2.device_name = "" then idx
      else setdefaultAppend idx (normalize_device kv.2.device_name) kv.1) acc,
      k ∈ p.2 → P p.1 := by
  induction rows with
  | nil => intro acc hacc _ p hp hk; exact hacc p hp hk
  | cons kv rest ih =>
      intro acc hacc hrows
      simp only [List.foldl_cons]
      apply ih
      · by_cases hn : normalize_device kv.2.device_name = ""
        · rw [if_pos hn]; exact hacc
        · rw [if_neg hn]
          exact setdefaultAppend_group_prop P k acc
            (normalize_device kv.2.device_name) kv.1 hacc
            (fun hkid => hrows kv (List.mem_cons_self kv rest) hkid.symm hn)
      · exact fun q hq => hrows q (List.mem_cons_of_mem kv hq)

theorem bdi_aux2 (k : String) (rows : List (String × Asset)) :
    ∀ (acc : List (String × List String)),
    ((∃ v, (k, v) ∈ rows ∧ ¬ normalize_device v.device_name = "") ∨
      (∃ p ∈ acc, k ∈ p.2)) →
    ∃ p ∈ rows.foldl (fun idx kv =>
      if normalize_device kv.2.device_name = "" then idx
      else setdefaultAppend idx (normalize_device kv.2.device_name) kv.1) acc,
      k ∈ p.2 := by
  induction rows with
  | nil =>
      intro acc h
      rcases h with ⟨v, hv, _⟩ | h
      · cases hv
      · exact h
  | cons kv rest ih =>
      intro acc h
      simp only [List.foldl_cons]
      apply ih
      rcases h with ⟨v, hv, hn⟩ | hacc
      · rcases List.mem_cons.mp hv with heq | hv2
        · right
          have hfst : kv.1 = k := (congrArg Prod.fst heq).symm
          have hsnd : v = kv.2 := congrArg Prod.snd heq
          rw [hsnd] at hn
          rw [if_neg hn]
          obtain ⟨p, hp, hid⟩ :=
            setdefaultAppend_mem_self acc (normalize_device kv.2.device_name) kv.1
          exact ⟨p, hp, by rw [← hfst]; exact hid⟩
        · exact Or.inl ⟨v, hv2, hn⟩
      · right
        by_cases hn : normalize_device kv.2.device_name = ""
        · rw [if_pos hn]; exact hacc
        · rw [if_neg hn]
          exact setdefaultAppend_mem_preserved acc _ kv.1 k hacc

theorem assignFor_build_device_index (m : AssetMap) (bd : List (String × BackupDev))
    (k : String) (v : Asset) (hnd : (keysOf m).Nodup) (hmem : (k, v) ∈ m) :
    assignFor bd k (build_device_index m) =
      (if normalize_device v.device_name = "" then none
       else some (applyBackup (alookup (normalize_device v.device_name) bd))) := by
  have hbd : build_device_index m = m.foldl (fun idx kv =>
      if normalize_device kv.2.device_name = "" then idx
      else setdefaultAppend idx (normalize_device kv.2.device_name) kv.1) [] := rfl
  have hrows : ∀ kv ∈ m, kv.1 = k → ¬ normalize_device kv.2.device_name = "" →
      (∃ w, (k, w) ∈ m ∧ normalize_device w.device_name = normalize_device kv.2.device_name ∧
        ¬ normalize_device kv.2.device_name = "") := by
    intro kv hkv hk1 hkn
    refine ⟨kv.2, ?_, rfl, hkn⟩
    have : (k, kv.2) = kv := by rw [← hk1]
    rw [this]
    exact hkv
  have hgroup : ∀ p ∈ build_device_index m, k ∈ p.2 →
      (∃ w, (k, w) ∈ m ∧ normalize_device w.device_name = p.1 ∧ ¬ p.1 = "") := by
    intro p hp hk
    exact bdi_aux1 k
      (fun nn => ∃ w, (k, w) ∈ m ∧ normalize_device w.device_name = nn ∧ ¬ nn = "")
      m [] (by intro q hq; cases hq)
      (fun kv hkv hk1 hkn => hrows kv hkv hk1 hkn)
      p (hbd ▸ hp) hk
  by_cases hn : normalize_device v.device_name = ""
  · rw [if_pos hn]
    apply (assignFor_eq_none_iff bd k _).mpr
    intro p hp hk
    obtain ⟨w, hw, hwn, hpne⟩ := hgroup p hp hk
    have hwv : w = v := keys_nodup_value_unique m k w v hnd hw hmem
    rw [hwv, hn] at hwn
    exact hpne hwn.symm
  · rw [if_neg hn]
    apply assignFor_of_unique
    · intro p hp hk
      obtain ⟨w, hw, hwn, _⟩ := hgroup p hp hk
      have hwv : w = v := keys_nodup_value_unique m k w v hnd hw hmem
      rw [← hwn, hwv]
    · rw [hbd]
      exact bdi_aux2 k m [] (Or.inl ⟨v, hmem, hn⟩)

theorem alookup_run_backup_pass (m : AssetMap) (bd : List (String × BackupDev))
    (k : String) (a : Asset) (ha : alookup k m = some a) :
    alookup k (run_backup_pass m bd) =
      some (applyAssign bd (build_device_index m) k a) := by
  unfold run_backup_pass
  rw [enrich_eq_map,
    alookup_map_entry (fun key v => applyAssign bd (build_device_index m) key v) k m, ha]
  rfl

theorem alookup_foldl_insertOverwrite (l : List String) (v : α)
    (acc : List (String × α)) (k : String) :
    alookup k (l.foldl (fun m n => insertOverwrite m n v) acc) =
      if k ∈ l then some v else alookup k acc := by
  induction l generalizing acc with
  | nil => simp
  | cons n rest ih =>
      simp only [List.foldl_cons]
      rw [ih]
      by_cases hk : k ∈ rest
      · rw [if_pos hk, if_pos (List.mem_cons_of_mem n hk)]
      · rw [if_neg hk, alookup_insertOverwrite_all]
        by_cases hn : n = k
        · rw [if_pos hn, if_pos (by rw [← hn]; exact List.mem_cons_self n rest)]
        · rw [if_neg hn,
            if_neg (by simp [List.mem_cons, hk]; exact fun h => hn h.symm)]

-- =====================================================
-- C10: assets with an empty normalized device name are untouched
-- =====================================================

/-- C10: the backup enricher's conservative default is applied only to
assets indexed under a non-empty normalized device name.  An asset whose
device_name normalizes to the empty string is never indexed, so the
enrichment pass leaves it entirely unchanged — it acquires no backup_state
at all, neither the assumed-enabled default nor any report-derived state. -/
theorem empty_device_name_untouched (m : AssetMap) (bd : List (String × BackupDev))
    (k : String) (a : Asset) (hnd : (keysOf m).Nodup) (ha : alookup k m = some a)
    (hn : normalize_device a.device_name = "") :
    alookup k (run_backup_pass m bd) = some a := by
  rw [alookup_run_backup_pass m bd k a ha]
  unfold applyAssign
  rw [assignFor_build_device_index m bd k a hnd (alookup_some_mem k m a ha), if_pos hn]

/-- Witness for C10 at a concrete input: a serial-only asset (empty device
name) is bit-identical after a backup pass whose report mentions other
devices, keeping `backup_state` absent. -/
theorem empty_device_name_untouched_witness :
    (keysOf ([("SN:Q", mkAsset "" (some "Q"))] : AssetMap)).Nodup ∧
    alookup "SN:Q" ([("SN:Q", mkAsset "" (some "Q"))] : AssetMap) =
      some (mkAsset "" (some "Q")) ∧
    normalize_device (mkAsset "" (some "Q")).device_name = "" ∧
    alookup "SN:Q" (run_backup_pass [("SN:Q", mkAsset "" (some "Q"))]
      [("ws-01", ⟨true, "healthy"⟩)]) = some (mkAsset "" (some "Q")) ∧
    (mkAsset "" (some "Q")).backup_state = none :=
  ⟨by decide, by decide, by decide,
   empty_device_name_untouched [("SN:Q", mkAsset "" (some "Q"))]
     [("ws-01", ⟨true, "healthy"⟩)] "SN:Q" (mkAsset "" (some "Q"))
     (by decide) (by decide) (by decide),
   by decide⟩

-- =====================================================
-- C5: backup tri-state conservative-default policy
-- =====================================================

/-- C5 counterexample: a device explicitly reported as pending installation
gets `enabled = false` and status `pending_installation` as claimed, but its
risk_level is "unknown", NOT "high": the risk ladder of
enrich_assets_with_backup has no branch for `pending_installation`, so the
final `else` assigns "unknown". -/
theorem pending_installation_risk_not_high :
    apply_failures_pending [] [] ["ws-07"] = [("ws-07", ⟨false, "pending_installation"⟩)] ∧
    (alookup "SN:X" (run_backup_pass [("SN:X", mkAsset "WS-07" (some "X"))]
      (apply_failures_pending [] [] ["ws-07"]))).map (fun a => a.backup_state) =
      some (some ⟨false, "pending_installation", "unknown"⟩) ∧
    ("unknown" : String) ≠ "high" :=
  ⟨by decide, by decide, by decide⟩

/-- C5 amended: for every asset whose device_name normalizes to a non-empty
name `n` (in a snapshot with distinct identity keys), the backup pass
realizes this tri-state policy: `n` absent from the report ⇒
`{enabled := true, status := "assumed_enabled", risk_level := "medium"}`;
`n` reported pending installation ⇒ `{enabled := false,
status := "pending_installation", risk_level := "unknown"}` (not "high");
`n` reported failed ⇒ `{enabled := true, status := "failed",
risk_level := "high"}`.  The last conjunct ties the report side down:
parse_backup_pdf's final passes map a pending device to
`{enabled := false, status := "pending_installation"}` and a failed,
non-pending device to `{enabled := true, status := "failed"}`. -/
theorem backup_tri_state_policy (m : AssetMap) (bd : List (String × BackupDev))
    (k n : String) (a : Asset)
    (hnd : (keysOf m).Nodup) (ha : alookup k m = some a)
    (hn : normalize_device a.device_name = n) (hne : ¬ n = "") :
    (alookup n bd = none →
      alookup k (run_backup_pass m bd) =
        some (setBackup a ⟨true, "assumed_enabled", "medium"⟩)) ∧
    (alookup n bd = some ⟨false, "pending_installation"⟩ →
      alookup k (run_backup_pass m bd) =
        some (setBackup a ⟨false, "pending_installation", "unknown"⟩)) ∧
    (alookup n bd = some ⟨true, "failed"⟩ →
      alookup k (run_backup_pass m bd) =
        some (setBackup a ⟨true, "failed", "high"⟩)) ∧
    (∀ (devices : List (String × BackupDev)) (failures pending : List String),
      (n ∈ pending →
        alookup n (apply_failures_pending devices failures pending) =
          some ⟨false, "pending_installation"⟩) ∧
      (n ∈ failures → n ∉ pending →
        alookup n (apply_failures_pending devices failures pending) =
          some ⟨true, "failed"⟩)) := by
  have hassign : assignFor bd k (build_device_index m) =
      some (applyBackup (alookup n bd)) := by
    rw [assignFor_build_device_index m bd k a hnd (alookup_some_mem k m a ha), hn,
      if_neg hne]
  refine ⟨?_, ?_, ?_, ?_⟩
  · intro hbd
    rw [alookup_run_backup_pass m bd k a ha]
    unfold applyAssign
    rw [hassign, hbd]
    rfl
  · intro hbd
    rw [alookup_run_backup_pass m bd k a ha]
    unfold applyAssign
    rw [hassign, hbd]
    exact congrArg (fun st => some (setBackup a st))
      (by decide :
        applyBackup (some ⟨false, "pending_installation"⟩) =
          ⟨false, "pending_installation", "unknown"⟩)
  · intro hbd
    rw [alookup_run_backup_pass m bd k a ha]
    unfold applyAssign
    rw [hassign, hbd]
    exact congrArg (fun st => some (setBackup a st))
      (by decide : applyBackup (some ⟨true, "failed"⟩) = ⟨true, "failed", "high"⟩)
  · intro devices failures pending
    constructor
    · intro hp
      unfold apply_failures_pending
      rw [alookup_foldl_insertOverwrite, if_pos hp]
    · intro hf hnp
      unfold apply_failures_pending
      rw [alookup_foldl_insertOverwrite, if_neg hnp,
        alookup_foldl_insertOverwrite, if_pos hf]

/-- Witness for the tri-state policy at a concrete input: device WS-07 is in
the inventory but the backup report mentions nothing at all, and it receives
the assumed-enabled / medium conservative default. -/
theorem backup_tri_state_policy_witness :
    (keysOf ([("SN:X", mkAsset "WS-07" (some "X"))] : AssetMap)).Nodup ∧
    alookup "SN:X" ([("SN:X", mkAsset "WS-07" (some "X"))] : AssetMap) =
      some (mkAsset "WS-07" (some "X")) ∧
    normalize_device (mkAsset "WS-07" (some "X")).device_name = "ws-07" ∧
    ¬ ("ws-07" : String) = "" ∧
    alookup "SN:X" (run_backup_pass [("SN:X", mkAsset "WS-07" (some "X"))] []) =
      some (setBackup (mkAsset "WS-07" (some "X")) ⟨true, "assumed_enabled", "medium"⟩) :=
  ⟨by decide, by decide, by decide, by decide,
   (backup_tri_state_policy [("SN:X", mkAsset "WS-07" (some "X"))] [] "SN:X" "ws-07"
     (mkAsset "WS-07" (some "X")) (by decide) (by decide) (by decide) (by decide)).1
     (by decide)⟩
